import Mathlib

/-!
Verification of the llm-sentinel online anomaly-detection core.

The Rust source is shallowly embedded: `f64` values are modelled as exact
rationals (`ℚ`); the square root used by the standard-deviation computation
(the only irrational operation in the code) is passed as an explicit function
parameter `sqrtFn`, so every theorem holds for any square-root implementation.
Wall-clock timestamps (`chrono::Utc::now()`) are modelled as explicit integer
second counts passed to each operation, matching the second granularity used
by `Duration::num_seconds`.  Concurrent maps (`DashMap`) are modelled as
association lists; a panic (out-of-bounds `Vec::remove`) is modelled by an
`Option` result being `none`.
-/

namespace LlmSentinel

/-! ### Association-list helpers (model of `DashMap` / `HashMap`) -/

def alookup {κ α : Type} [DecidableEq κ] : List (κ × α) → κ → Option α
  | [], _ => none
  | (k, v) :: rest, k0 => if k0 = k then some v else alookup rest k0

def aupdate {κ α : Type} [DecidableEq κ] : List (κ × α) → κ → α → List (κ × α)
  | [], k0, v0 => [(k0, v0)]
  | (k, v) :: rest, k0, v0 =>
    if k0 = k then (k0, v0) :: rest else (k, v) :: aupdate rest k0 v0

def aerase {κ α : Type} [DecidableEq κ] (l : List (κ × α)) (k0 : κ) : List (κ × α) :=
  l.filter (fun p => p.1 ≠ k0)

/-- The keys of an association list are pairwise distinct (holds for every
state built from the empty map by `aupdate`, mirroring `DashMap`). -/
def NodupKeys {κ α : Type} (l : List (κ × α)) : Prop := (l.map Prod.fst).Nodup

theorem alookup_aupdate_self {κ α : Type} [DecidableEq κ]
    (l : List (κ × α)) (k : κ) (v : α) : alookup (aupdate l k v) k = some v := by
  induction l with
  | nil => simp [aupdate, alookup]
  | cons p rest ih =>
    obtain ⟨k1, v1⟩ := p
    by_cases h : k = k1
    · simp [aupdate, alookup, h]
    · simp [aupdate, alookup, h, ih]

theorem alookup_aupdate_ne {κ α : Type} [DecidableEq κ]
    (l : List (κ × α)) (k k2 : κ) (v : α) (hne : k2 ≠ k) :
    alookup (aupdate l k v) k2 = alookup l k2 := by
  induction l with
  | nil => simp [aupdate, alookup, hne]
  | cons p rest ih =>
    obtain ⟨k1, v1⟩ := p
    by_cases h : k = k1
    · subst h
      simp [aupdate, alookup, hne]
    · by_cases h2 : k2 = k1
      · simp [aupdate, alookup, h, h2]
      · simp [aupdate, alookup, h, h2, ih]

/-! ### `stats.rs` — statistical primitives

`sort_by(partial_cmp)` on NaN-free data is ordinary sorting by `≤`. -/

def sortData (data : List ℚ) : List ℚ := List.insertionSort (fun a b => a ≤ b) data

/-- `stats::mean` -/
def mean (data : List ℚ) : ℚ :=
  if data = [] then 0 else data.sum / (data.length : ℚ)

/-- Sample variance with `n − 1` denominator (exact-arithmetic value of the
statrs single-pass computation underlying `Data::std_dev`). -/
def sampleVariance (data : List ℚ) : ℚ :=
  (data.map (fun x => (x - mean data) ^ 2)).sum / ((data.length : ℚ) - 1)

/-- `stats::std_dev`: 0 when n < 2, otherwise the square root of the sample
variance.  The square root (irrational on ℚ) is the parameter `sqrtFn`. -/
def std_dev (sqrtFn : ℚ → ℚ) (data : List ℚ) : ℚ :=
  if data.length < 2 then 0 else sqrtFn (sampleVariance data)

/-- `stats::median` -/
def median (data : List ℚ) : ℚ :=
  if data = [] then 0
  else
    let sorted := sortData data
    let mid := sorted.length / 2
    if sorted.length % 2 = 0 then (sorted.getD (mid - 1) 0 + sorted.getD mid 0) / 2
    else sorted.getD mid 0

/-- `stats::mad` -/
def mad (data : List ℚ) : ℚ :=
  if data = [] then 0
  else median (data.map (fun x => |x - median data|))

def minList (data : List ℚ) : ℚ :=
  match data with
  | [] => 0
  | x :: xs => xs.foldl min x

def maxList (data : List ℚ) : ℚ :=
  match data with
  | [] => 0
  | x :: xs => xs.foldl max x

/-- statrs `OrderStatistics::quantile` (method R-8) on already-sorted data:
`h = (n + 1/3)·τ + 1/3`, linear interpolation between the order statistics at
`⌊h⌋` and `⌊h⌋+1` (1-based), clamped to min/max.  The NaN results for empty
data or τ outside [0,1] are modelled as 0 (all call sites guard them). -/
def quantileSorted (sorted : List ℚ) (tau : ℚ) : ℚ :=
  let n := sorted.length
  if n = 0 ∨ tau < 0 ∨ 1 < tau then 0
  else
    let h : ℚ := ((n : ℚ) + 1 / 3) * tau + 1 / 3
    let hf : ℤ := ⌊h⌋
    if hf ≤ 0 ∨ tau = 0 then minList sorted
    else if (n : ℤ) ≤ hf ∨ tau = 1 then maxList sorted
    else
      let a := sorted.getD (hf.toNat - 1) 0
      let b := sorted.getD hf.toNat 0
      a + (h - (hf : ℚ)) * (b - a)

/-- `stats::iqr`: `(q1, q3, q3 − q1)` via statrs lower/upper quartiles. -/
def iqr (data : List ℚ) : ℚ × ℚ × ℚ :=
  if data = [] then (0, 0, 0)
  else
    let sorted := sortData data
    let q1 := quantileSorted sorted (1 / 4)
    let q3 := quantileSorted sorted (3 / 4)
    (q1, q3, q3 - q1)

/-- `stats::percentile`: `p` is truncated to an integer percent
(`p as usize`), then `quantile(p/100)`. -/
def percentile (data : List ℚ) (p : ℚ) : ℚ :=
  if data = [] then 0
  else quantileSorted (sortData data) ((⌊p⌋.toNat : ℚ) / 100)

/-- `stats::zscore` -/
def zscore (value meanv sd : ℚ) : ℚ :=
  if sd = 0 then 0 else (value - meanv) / sd

/-- `stats::is_zscore_outlier` -/
def is_zscore_outlier (value meanv sd threshold : ℚ) : Bool :=
  decide (|zscore value meanv sd| > threshold)

/-- `stats::is_iqr_outlier` -/
def is_iqr_outlier (value q1 q3 iqrv multiplier : ℚ) : Bool :=
  decide (value < q1 - multiplier * iqrv ∨ value > q3 + multiplier * iqrv)

/-- `stats::is_mad_outlier`: modified Z-score `0.6745·|x − median|/mad`,
never an outlier when `mad = 0`. -/
def is_mad_outlier (value medianv madv threshold : ℚ) : Bool :=
  if madv = 0 then false
  else decide (0.6745 * |value - medianv| / madv > threshold)

/-! ### `stats.rs` — `RollingWindow` -/

structure RollingWindow where
  data : List ℚ
  capacity : ℕ
deriving DecidableEq

namespace RollingWindow

/-- `RollingWindow::new` (no capacity check in the source). -/
def new (capacity : ℕ) : RollingWindow := ⟨[], capacity⟩

/-- `RollingWindow::push`: when the buffer is at (or beyond) capacity it first
executes `self.data.remove(0)`, which panics on an empty buffer (this happens
exactly when `capacity = 0`); the panic is modelled as `none`. -/
def push? (w : RollingWindow) (value : ℚ) : Option RollingWindow :=
  if w.data.length ≥ w.capacity then
    match w.data with
    | [] => none
    | _ :: rest => some ⟨rest ++ [value], w.capacity⟩
  else some ⟨w.data ++ [value], w.capacity⟩

/-- Push a whole sequence left-to-right; `none` if any push panics. -/
def pushAll? (w : RollingWindow) : List ℚ → Option RollingWindow
  | [] => some w
  | v :: vs =>
    match w.push? v with
    | none => none
    | some w1 => w1.pushAll? vs

/-- `RollingWindow::is_full` -/
def is_full (w : RollingWindow) : Bool := decide (w.data.length ≥ w.capacity)

/-- `RollingWindow::len` -/
def len (w : RollingWindow) : ℕ := w.data.length

end RollingWindow

/-! Single-push characterisation used for the FIFO property. -/

theorem push?_eq_of_le (data : List ℚ) (cap : ℕ) (v : ℚ)
    (hcap : 1 ≤ cap) (hlen : data.length ≤ cap) :
    RollingWindow.push? ⟨data, cap⟩ v =
      some ⟨(data ++ [v]).drop (data.length + 1 - cap), cap⟩ := by
  unfold RollingWindow.push?
  rcases data with _ | ⟨x, rest⟩
  · rw [if_neg (by simp; omega)]
    have hz : ([] : List ℚ).length + 1 - cap = 0 := by simp; omega
    rw [hz, List.drop_zero]
  · by_cases hge : (x :: rest).length ≥ cap
    · rw [if_pos hge]
      have h1 : (x :: rest).length + 1 - cap = 1 := by
        simp only [List.length_cons] at hge hlen ⊢
        omega
      rw [h1]
      simp
    · rw [if_neg hge]
      have h0 : (x :: rest).length + 1 - cap = 0 := by
        simp only [List.length_cons] at hge ⊢
        omega
      rw [h0, List.drop_zero]

theorem pushAll?_eq_of_le (S : List ℚ) (data : List ℚ) (cap : ℕ)
    (hcap : 1 ≤ cap) (hlen : data.length ≤ cap) :
    RollingWindow.pushAll? ⟨data, cap⟩ S =
      some ⟨(data ++ S).drop (data.length + S.length - cap), cap⟩ := by
  induction S generalizing data with
  | nil =>
    rw [RollingWindow.pushAll?]
    simp only [List.length_nil, List.append_nil, Nat.add_zero]
    rw [show data.length - cap = 0 from by omega, List.drop_zero]
  | cons v vs ih =>
    have hlen1 : ((data ++ [v]).drop (data.length + 1 - cap)).length ≤ cap := by
      simp only [List.length_drop, List.length_append, List.length_singleton]
      omega
    rw [RollingWindow.pushAll?, push?_eq_of_le data cap v hcap hlen]
    simp only []
    rw [ih _ hlen1]
    congr 2
    have hsplit : ((data ++ [v]) ++ vs).drop (data.length + 1 - cap)
        = (data ++ [v]).drop (data.length + 1 - cap) ++ vs := by
      rw [List.drop_append_eq_append_drop]
      have hz : data.length + 1 - cap - (data ++ [v]).length = 0 := by
        simp only [List.length_append, List.length_singleton]
        omega
      rw [hz, List.drop_zero]
    rw [← hsplit, List.drop_drop]
    have hassoc : (data ++ [v]) ++ vs = data ++ v :: vs := by
      rw [List.append_assoc, List.singleton_append]
    rw [hassoc]
    congr 1
    simp
    omega

/-- **C4** (amended: capacity at least 1).  After pushing a sequence `S` into a
fresh capacity-`c` window every intermediate push succeeds, every intermediate
length is at most `c`, and the final contents are the last `min(|S|, c)`
elements of `S` in insertion order. -/
theorem rollingWindow_fifo_bound (c : ℕ) (S : List ℚ) (hc : 1 ≤ c) :
    (∃ w : RollingWindow,
        (RollingWindow.new c).pushAll? S = some w ∧
        w.data = S.drop (S.length - c) ∧ w.data.length ≤ c) ∧
    (∀ t : List ℚ, t <+: S →
      ∃ wt : RollingWindow,
        (RollingWindow.new c).pushAll? t = some wt ∧ wt.data.length ≤ c) := by
  constructor
  · refine ⟨_, pushAll?_eq_of_le S [] c hc (by simp), ?_, ?_⟩
    · simp
    · simp only [List.length_drop, List.nil_append, List.length_nil, Nat.zero_add]
      omega
  · intro t _
    refine ⟨_, pushAll?_eq_of_le t [] c hc (by simp), ?_⟩
    simp only [List.length_drop, List.nil_append, List.length_nil, Nat.zero_add]
    omega

/-- **C4 counterexample.**  With capacity 0 the first push panics
(`Vec::remove(0)` on an empty buffer), so no window results at all — the
claimed FIFO behaviour (resulting data = last `min(|S|, 0) = 0` elements)
fails for the capacity-0 window that `RollingWindow::new(0)` happily
constructs. -/
theorem rollingWindow_capacity_zero_panics :
    ¬ ∃ w : RollingWindow,
        (RollingWindow.new 0).pushAll? [(1 : ℚ)] = some w ∧ w.data = [] := by
  intro ⟨w, hw, _⟩
  simp [RollingWindow.new, RollingWindow.pushAll?, RollingWindow.push?] at hw

/-- **C4 witness.** -/
theorem rollingWindow_fifo_bound_witness :
    ∃ w : RollingWindow,
      (RollingWindow.new 2).pushAll? [1, 2, 3] = some w ∧
      w.data = [(1 : ℚ), 2, 3].drop (3 - 2) ∧ w.data.length ≤ 2 :=
  (rollingWindow_fifo_bound 2 [1, 2, 3] (by decide)).1

/-! ### `sentinel-core/src/types.rs` — enumerations and identifiers

`ServiceId` and `ModelId` are newtype wrappers over strings; they are
modelled directly as `String`. -/

inductive Severity where
  | Low
  | Medium
  | High
  | Critical
deriving DecidableEq

def Severity.toNat : Severity → ℕ
  | .Low => 0
  | .Medium => 1
  | .High => 2
  | .Critical => 3

/-- The derived `Ord` total order on `Severity`
(declaration order: Low < Medium < High < Critical). -/
def Severity.le (a b : Severity) : Prop := a.toNat ≤ b.toNat

inductive AnomalyType where
  | LatencySpike
  | ThroughputDegradation
  | ErrorRateIncrease
  | TokenUsageSpike
  | CostAnomaly
  | InputDrift
  | OutputDrift
  | ConceptDrift
  | EmbeddingDrift
  | Hallucination
  | QualityDegradation
  | SecurityThreat
  | Custom (s : String)
deriving DecidableEq

inductive DetectionMethod where
  | ZScore
  | Iqr
  | Mad
  | Cusum
  | IsolationForest
  | LstmAutoencoder
  | OneClassSvm
  | Psi
  | KlDivergence
  | LlmCheck
  | Rag
  | Custom (s : String)
deriving DecidableEq

/-! ### `sentinel-alerting/src/deduplication.rs` -/

structure DeduplicationConfig where
  window_secs : ℕ
  enabled : Bool
  cleanup_interval_secs : ℕ
deriving DecidableEq

structure DeduplicationKey where
  service : String
  model : String
  anomaly_type : AnomalyType
  severity : Severity
deriving DecidableEq

structure DeduplicationEntry where
  last_seen : ℤ
  count : ℕ
  alert_ids : List String
deriving DecidableEq

namespace DeduplicationEntry

/-- `DeduplicationEntry::new` (`Utc::now()` is the explicit `now`). -/
def new (alertId : String) (now : ℤ) : DeduplicationEntry := ⟨now, 1, [alertId]⟩

/-- `DeduplicationEntry::increment` -/
def increment (e : DeduplicationEntry) (alertId : String) (now : ℤ) : DeduplicationEntry :=
  ⟨now, e.count + 1, e.alert_ids ++ [alertId]⟩

/-- `DeduplicationEntry::is_expired`: elapsed whole seconds strictly greater
than the window. -/
def is_expired (e : DeduplicationEntry) (window : ℕ) (now : ℤ) : Bool :=
  decide (now - e.last_seen > (window : ℤ))

end DeduplicationEntry

/-- The `entries` DashMap of `AlertDeduplicator`. -/
abbrev DedupEntries := List (DeduplicationKey × DeduplicationEntry)

namespace AlertDeduplicator

/-- `AlertDeduplicator::should_send`.  The key is `DeduplicationKey::from_event`
of the incoming anomaly and `alertId` its `alert_id`; both are passed
explicitly, as is the wall-clock time `now`. -/
def should_send (cfg : DeduplicationConfig) (entries : DedupEntries)
    (key : DeduplicationKey) (alertId : String) (now : ℤ) : Bool × DedupEntries :=
  if !cfg.enabled then (true, entries)
  else
    match alookup entries key with
    | some e =>
      if e.is_expired cfg.window_secs now then
        (true, aupdate entries key (DeduplicationEntry.new alertId now))
      else
        (false, aupdate entries key (e.increment alertId now))
    | none => (true, aupdate entries key (DeduplicationEntry.new alertId now))

/-- `AlertDeduplicator::cleanup_expired` -/
def cleanup_expired (cfg : DeduplicationConfig) (entries : DedupEntries)
    (now : ℤ) : DedupEntries :=
  entries.filter (fun p => !(p.2.is_expired cfg.window_secs now))

/-- A sequence of `should_send` calls for one fixed signature key, recording
each result together with its call time. -/
def runKey (cfg : DeduplicationConfig) (key : DeduplicationKey) :
    DedupEntries → List (String × ℤ) → List (Bool × ℤ)
  | _, [] => []
  | entries, (alertId, t) :: rest =>
    let r := should_send cfg entries key alertId t
    (r.1, t) :: runKey cfg key r.2 rest

/-- A sequence of `should_send` calls over arbitrary keys, recording results. -/
def runCalls (cfg : DeduplicationConfig) :
    DedupEntries → List (DeduplicationKey × String × ℤ) → List Bool
  | _, [] => []
  | entries, (key, alertId, t) :: rest =>
    let r := should_send cfg entries key alertId t
    r.1 :: runCalls cfg r.2 rest

end AlertDeduplicator

/-- `DeduplicationStats` of `AlertDeduplicator::get_stats`; the `by_severity`
HashMap is modelled as its (total) lookup function, absent keys reading 0. -/
structure DeduplicationStats where
  total_signatures : ℕ
  total_deduplicated : ℕ
  by_severity : Severity → ℕ

/-- `AlertDeduplicator::get_stats` (`count.saturating_sub(1)` is truncated
subtraction on ℕ). -/
def AlertDeduplicator.get_stats (entries : DedupEntries) : DeduplicationStats :=
  { total_signatures := entries.length
    total_deduplicated := (entries.map (fun p => p.2.count - 1)).sum
    by_severity := fun sev =>
      ((entries.filter (fun p => decide (p.1.severity = sev))).map
        (fun p => p.2.count - 1)).sum }

/-! Helper lemmas on `should_send` traces (per-key temporal behaviour). -/

theorem should_send_enabled_some (cfg : DeduplicationConfig) (entries : DedupEntries)
    (key : DeduplicationKey) (alertId : String) (now : ℤ) (e : DeduplicationEntry)
    (hen : cfg.enabled = true) (hlk : alookup entries key = some e) :
    AlertDeduplicator.should_send cfg entries key alertId now =
      if e.is_expired cfg.window_secs now then
        (true, aupdate entries key (DeduplicationEntry.new alertId now))
      else (false, aupdate entries key (e.increment alertId now)) := by
  unfold AlertDeduplicator.should_send
  rw [hen, hlk]
  simp

theorem should_send_enabled_none (cfg : DeduplicationConfig) (entries : DedupEntries)
    (key : DeduplicationKey) (alertId : String) (now : ℤ)
    (hen : cfg.enabled = true) (hlk : alookup entries key = none) :
    AlertDeduplicator.should_send cfg entries key alertId now =
      (true, aupdate entries key (DeduplicationEntry.new alertId now)) := by
  unfold AlertDeduplicator.should_send
  rw [hen, hlk]
  simp

/-- Every `true` result in a per-key run starting from a state holding entry
`e` comes strictly more than a window after `e.last_seen`. -/
theorem runKey_true_spacing (cfg : DeduplicationConfig) (key : DeduplicationKey)
    (hen : cfg.enabled = true) :
    ∀ (trace : List (String × ℤ)) (entries : DedupEntries) (e : DeduplicationEntry),
      alookup entries key = some e →
      (trace.map (fun p => p.2)).Chain' (· ≤ ·) →
      (∀ t0 ∈ (trace.map (fun p => p.2)).head?, e.last_seen ≤ t0) →
      ∀ p ∈ AlertDeduplicator.runKey cfg key entries trace,
        p.1 = true → p.2 - e.last_seen > (cfg.window_secs : ℤ)
  | [], _, _, _, _, _ => by intro p hp; simp [AlertDeduplicator.runKey] at hp
  | (alertId, t) :: rest, entries, e, hlk, hch, hhd => by
    intro p hp htrue
    have hle : e.last_seen ≤ t := by
      apply hhd
      simp
    rw [List.map_cons, List.chain'_cons'] at hch
    rw [AlertDeduplicator.runKey] at hp
    simp only [should_send_enabled_some cfg entries key alertId t e hen hlk] at hp
    by_cases hexp : e.is_expired cfg.window_secs t = true
    · rw [if_pos hexp] at hp
      simp only [List.mem_cons] at hp
      rcases hp with hp | hp
      · subst hp
        simp only [DeduplicationEntry.is_expired, decide_eq_true_eq] at hexp
        exact hexp
      · have hrec := runKey_true_spacing cfg key hen rest _ _
          (alookup_aupdate_self entries key (DeduplicationEntry.new alertId t))
          hch.2 (by intro t0 ht0; exact hch.1 t0 ht0) p hp htrue
        simp only [DeduplicationEntry.new] at hrec
        omega
    · rw [if_neg hexp] at hp
      simp only [List.mem_cons] at hp
      rcases hp with hp | hp
      · subst hp
        simp at htrue
      · have hrec := runKey_true_spacing cfg key hen rest _ _
          (alookup_aupdate_self entries key (e.increment alertId t))
          hch.2 (by intro t0 ht0; exact hch.1 t0 ht0) p hp htrue
        simp only [DeduplicationEntry.increment] at hrec
        omega

/-- Any two `true` results in a per-key run are more than a window apart. -/
theorem runKey_pairwise_spacing (cfg : DeduplicationConfig) (key : DeduplicationKey)
    (hen : cfg.enabled = true) :
    ∀ (trace : List (String × ℤ)) (entries : DedupEntries),
      (alookup entries key = none ∨
        ∃ e, alookup entries key = some e ∧
          ∀ t0 ∈ (trace.map (fun p => p.2)).head?, e.last_seen ≤ t0) →
      (trace.map (fun p => p.2)).Chain' (· ≤ ·) →
      (AlertDeduplicator.runKey cfg key entries trace).Pairwise
        (fun a b => a.1 = true → b.1 = true → b.2 - a.2 > (cfg.window_secs : ℤ))
  | [], _, _, _ => by simp [AlertDeduplicator.runKey]
  | (alertId, t) :: rest, entries, hstart, hch => by
    rw [List.map_cons, List.chain'_cons'] at hch
    rcases hstart with hnone | ⟨e, hlk, hhd⟩
    · rw [AlertDeduplicator.runKey]
      simp only [should_send_enabled_none cfg entries key alertId t hen hnone]
      rw [List.pairwise_cons]
      constructor
      · intro p hp _ hptrue
        have := runKey_true_spacing cfg key hen rest _ _
          (alookup_aupdate_self entries key (DeduplicationEntry.new alertId t))
          hch.2 (by intro t0 ht0; exact hch.1 t0 ht0) p hp hptrue
        simp only [DeduplicationEntry.new] at this
        exact this
      · exact runKey_pairwise_spacing cfg key hen rest _
          (Or.inr ⟨DeduplicationEntry.new alertId t,
            alookup_aupdate_self entries key _,
            by intro t0 ht0; exact hch.1 t0 ht0⟩) hch.2
    · rw [AlertDeduplicator.runKey]
      simp only [should_send_enabled_some cfg entries key alertId t e hen hlk]
      by_cases hexp : e.is_expired cfg.window_secs t = true
      · rw [if_pos hexp]
        rw [List.pairwise_cons]
        constructor
        · intro p hp _ hptrue
          have := runKey_true_spacing cfg key hen rest _ _
            (alookup_aupdate_self entries key (DeduplicationEntry.new alertId t))
            hch.2 (by intro t0 ht0; exact hch.1 t0 ht0) p hp hptrue
          simp only [DeduplicationEntry.new] at this
          exact this
        · exact runKey_pairwise_spacing cfg key hen rest _
            (Or.inr ⟨DeduplicationEntry.new alertId t,
              alookup_aupdate_self entries key _,
              by intro t0 ht0; exact hch.1 t0 ht0⟩) hch.2
      · rw [if_neg hexp]
        rw [List.pairwise_cons]
        constructor
        · intro p hp hfalse _
          simp at hfalse
        · exact runKey_pairwise_spacing cfg key hen rest _
            (Or.inr ⟨e.increment alertId t,
              alookup_aupdate_self entries key _,
              by intro t0 ht0; exact hch.1 t0 ht0⟩) hch.2

/-- **C1.**  With deduplication enabled: the first observation of a signature
key returns `true` and creates an entry with `count = 1`; an observation at
most `window_secs` after the previous observation returns `false`, increments
`count` and advances `last_seen`; an observation strictly more than
`window_secs` later returns `true` and resets the entry to `count = 1`;
and in any nondecreasing-time sequence of observations of the key, any two
`true` returns are strictly more than `window_secs` apart. -/
theorem dedup_window_semantics (cfg : DeduplicationConfig) (key : DeduplicationKey)
    (hen : cfg.enabled = true) :
    (∀ (entries : DedupEntries) (alertId : String) (now : ℤ),
      alookup entries key = none →
      AlertDeduplicator.should_send cfg entries key alertId now
        = (true, aupdate entries key ⟨now, 1, [alertId]⟩)) ∧
    (∀ (entries : DedupEntries) (e : DeduplicationEntry) (alertId : String) (now : ℤ),
      alookup entries key = some e →
      now - e.last_seen ≤ (cfg.window_secs : ℤ) →
      AlertDeduplicator.should_send cfg entries key alertId now
        = (false, aupdate entries key ⟨now, e.count + 1, e.alert_ids ++ [alertId]⟩)) ∧
    (∀ (entries : DedupEntries) (e : DeduplicationEntry) (alertId : String) (now : ℤ),
      alookup entries key = some e →
      now - e.last_seen > (cfg.window_secs : ℤ) →
      AlertDeduplicator.should_send cfg entries key alertId now
        = (true, aupdate entries key ⟨now, 1, [alertId]⟩)) ∧
    (∀ (entries : DedupEntries) (trace : List (String × ℤ)),
      alookup entries key = none →
      (trace.map (fun p => p.2)).Chain' (· ≤ ·) →
      (AlertDeduplicator.runKey cfg key entries trace).Pairwise
        (fun a b => a.1 = true → b.1 = true → b.2 - a.2 > (cfg.window_secs : ℤ))) := by
  refine ⟨?_, ?_, ?_, ?_⟩
  · intro entries alertId now hlk
    exact should_send_enabled_none cfg entries key alertId now hen hlk
  · intro entries e alertId now hlk hwin
    rw [should_send_enabled_some cfg entries key alertId now e hen hlk]
    have hexp : e.is_expired cfg.window_secs now = false := by
      simp [DeduplicationEntry.is_expired]
      omega
    rw [hexp]
    rfl
  · intro entries e alertId now hlk hwin
    rw [should_send_enabled_some cfg entries key alertId now e hen hlk]
    have hexp : e.is_expired cfg.window_secs now = true := by
      simp [DeduplicationEntry.is_expired]
      omega
    rw [hexp]
    rfl
  · intro entries trace hlk hch
    exact runKey_pairwise_spacing cfg key hen trace entries (Or.inl hlk) hch

/-! Helper lemmas for cleanup (C8). -/

theorem alookup_eq_none_of_not_mem {κ α : Type} [DecidableEq κ]
    (l : List (κ × α)) (k : κ) (h : k ∉ l.map Prod.fst) : alookup l k = none := by
  induction l with
  | nil => rfl
  | cons p rest ih =>
    simp only [List.map_cons, List.mem_cons] at h
    push_neg at h
    simp only [alookup, if_neg h.1]
    exact ih h.2

theorem alookup_filter {κ α : Type} [DecidableEq κ]
    (q : κ × α → Bool) (l : List (κ × α)) (k : κ) (hnd : NodupKeys l) :
    alookup (l.filter q) k =
      match alookup l k with
      | some v => if q (k, v) then some v else none
      | none => none := by
  induction l with
  | nil => rfl
  | cons p rest ih =>
    obtain ⟨k1, v1⟩ := p
    simp only [NodupKeys, List.map_cons, List.nodup_cons] at hnd
    by_cases hk : k = k1
    · subst hk
      by_cases hq : q (k, v1) = true
      · simp [alookup, List.filter, hq]
      · simp only [List.filter, hq, Bool.false_eq_true, if_neg, cond_false]
        rw [alookup_eq_none_of_not_mem _ k (by
          intro hmem
          exact hnd.1 (by
            have : k ∈ (rest.filter q).map Prod.fst := hmem
            have hsub : (rest.filter q).map Prod.fst ⊆ rest.map Prod.fst := by
              intro x hx
              simp only [List.mem_map] at hx ⊢
              obtain ⟨pp, hpp, hx⟩ := hx
              exact ⟨pp, List.mem_of_mem_filter hpp, hx⟩
            exact hsub this))]
        simp [alookup, hq]
    · simp only [alookup, if_neg hk]
      by_cases hq : q (k1, v1) = true
      · simp only [List.filter, hq, cond_true, alookup, if_neg hk]
        exact ih hnd.2
      · simp only [List.filter, hq, cond_false]
        exact ih hnd.2

theorem filter_keys_subset {κ α : Type} (q : κ × α → Bool) (l : List (κ × α)) :
    (l.filter q).map Prod.fst ⊆ l.map Prod.fst := by
  intro x hx
  simp only [List.mem_map] at hx ⊢
  obtain ⟨pp, hpp, hx⟩ := hx
  exact ⟨pp, List.mem_of_mem_filter hpp, hx⟩

/-- Expiry is monotone in the clock. -/
theorem is_expired_mono (e : DeduplicationEntry) (w : ℕ) (t now : ℤ)
    (h : e.is_expired w t = true) (hle : t ≤ now) : e.is_expired w now = true := by
  simp only [DeduplicationEntry.is_expired, decide_eq_true_eq] at h ⊢
  omega

/-- Simulation relation between an uncleaned state `s` and a state `s2` that
may lack some entries that were expired at time `t`. -/
def CleanupRel (cfg : DeduplicationConfig) (t : ℤ) (s s2 : DedupEntries) : Prop :=
  ∀ k, alookup s2 k = alookup s k ∨
    (alookup s2 k = none ∧
      ∃ e, alookup s k = some e ∧ e.is_expired cfg.window_secs t = true)

theorem cleanupRel_init (cfg : DeduplicationConfig) (t : ℤ) (s : DedupEntries)
    (hnd : NodupKeys s) :
    CleanupRel cfg t s (AlertDeduplicator.cleanup_expired cfg s t) := by
  intro k
  rw [AlertDeduplicator.cleanup_expired, alookup_filter _ s k hnd]
  cases hlk : alookup s k with
  | none => exact Or.inl rfl
  | some e =>
    by_cases hexp : e.is_expired cfg.window_secs t = true
    · refine Or.inr ⟨?_, e, rfl, hexp⟩
      simp [hexp]
    · refine Or.inl ?_
      simp [hexp]

theorem cleanupRel_step (cfg : DeduplicationConfig) (t : ℤ) (s s2 : DedupEntries)
    (key : DeduplicationKey) (alertId : String) (now : ℤ)
    (hrel : CleanupRel cfg t s s2) (hle : t ≤ now) :
    (AlertDeduplicator.should_send cfg s2 key alertId now).1
      = (AlertDeduplicator.should_send cfg s key alertId now).1 ∧
    CleanupRel cfg t (AlertDeduplicator.should_send cfg s key alertId now).2
      (AlertDeduplicator.should_send cfg s2 key alertId now).2 := by
  by_cases hen : cfg.enabled = true
  · rcases hrel key with heq | ⟨hnone, e, hsome, hexp⟩
    · cases hlk : alookup s key with
      | none =>
        rw [should_send_enabled_none cfg s key alertId now hen hlk,
          should_send_enabled_none cfg s2 key alertId now hen (heq.trans hlk)]
        refine ⟨rfl, ?_⟩
        intro k
        by_cases hk : k = key
        · subst hk
          rw [alookup_aupdate_self, alookup_aupdate_self]
          exact Or.inl rfl
        · rw [alookup_aupdate_ne _ _ _ _ hk, alookup_aupdate_ne _ _ _ _ hk]
          exact hrel k
      | some e =>
        rw [should_send_enabled_some cfg s key alertId now e hen hlk,
          should_send_enabled_some cfg s2 key alertId now e hen (heq.trans hlk)]
        by_cases hexp : e.is_expired cfg.window_secs now = true
        · rw [if_pos hexp, if_pos hexp]
          refine ⟨rfl, ?_⟩
          intro k
          by_cases hk : k = key
          · subst hk
            rw [alookup_aupdate_self, alookup_aupdate_self]
            exact Or.inl rfl
          · rw [alookup_aupdate_ne _ _ _ _ hk, alookup_aupdate_ne _ _ _ _ hk]
            exact hrel k
        · rw [if_neg hexp, if_neg hexp]
          refine ⟨rfl, ?_⟩
          intro k
          by_cases hk : k = key
          · subst hk
            rw [alookup_aupdate_self, alookup_aupdate_self]
            exact Or.inl rfl
          · rw [alookup_aupdate_ne _ _ _ _ hk, alookup_aupdate_ne _ _ _ _ hk]
            exact hrel k
    · have hexpnow := is_expired_mono e cfg.window_secs t now hexp hle
      rw [should_send_enabled_some cfg s key alertId now e hen hsome,
        should_send_enabled_none cfg s2 key alertId now hen hnone,
        if_pos hexpnow]
      refine ⟨rfl, ?_⟩
      intro k
      by_cases hk : k = key
      · subst hk
        rw [alookup_aupdate_self, alookup_aupdate_self]
        exact Or.inl rfl
      · rw [alookup_aupdate_ne _ _ _ _ hk, alookup_aupdate_ne _ _ _ _ hk]
        exact hrel k
  · have hen2 : cfg.enabled = false := by
      cases h : cfg.enabled
      · rfl
      · exact absurd h hen
    unfold AlertDeduplicator.should_send
    rw [hen2]
    exact ⟨rfl, hrel⟩

theorem runCalls_of_rel (cfg : DeduplicationConfig) (t : ℤ) :
    ∀ (trace : List (DeduplicationKey × String × ℤ)) (s s2 : DedupEntries),
      CleanupRel cfg t s s2 → (∀ p ∈ trace, t ≤ p.2.2) →
      AlertDeduplicator.runCalls cfg s2 trace = AlertDeduplicator.runCalls cfg s trace
  | [], _, _, _, _ => rfl
  | (key, alertId, now) :: rest, s, s2, hrel, htimes => by
    have hstep := cleanupRel_step cfg t s s2 key alertId now hrel
      (htimes (key, alertId, now) (by simp))
    rw [AlertDeduplicator.runCalls, AlertDeduplicator.runCalls]
    rw [runCalls_of_rel cfg t rest _ _ hstep.2
      (fun p hp => htimes p (List.mem_cons_of_mem _ hp))]
    rw [hstep.1]

theorem filter_of_fail_erase {κ α : Type} [DecidableEq κ]
    (q : κ × α → Bool) (l : List (κ × α)) (k : κ)
    (hfail : ∀ v, (k, v) ∈ l → q (k, v) = false) :
    l.filter q = (aerase l k).filter q := by
  induction l with
  | nil => rfl
  | cons p rest ih =>
    obtain ⟨k1, v1⟩ := p
    by_cases hk : k1 = k
    · subst hk
      have : q (k1, v1) = false := hfail v1 (by simp)
      simp only [List.filter, this, cond_false, aerase, ne_eq]
      rw [ih (fun v hv => hfail v (List.mem_cons_of_mem _ hv))]
      simp [aerase, List.filter]
    · simp only [aerase, List.filter_cons]
      have hne : (fun p => decide ¬ p.1 = k) (k1, v1) = true := by simp [hk]
      simp only [ne_eq, hne]
      by_cases hq : q (k1, v1) = true
      · simp only [hq, if_pos, if_true]
        rw [ih (fun v hv => hfail v (List.mem_cons_of_mem _ hv))]
        simp [aerase, List.filter_cons, hq]
      · simp only [List.filter]
        rw [Bool.not_eq_true] at hq
        simp only [hq, cond_false]
        rw [ih (fun v hv => hfail v (List.mem_cons_of_mem _ hv))]
        simp [aerase, List.filter, hq]

theorem mem_of_alookup_nodup {κ α : Type} [DecidableEq κ]
    (l : List (κ × α)) (k : κ) (v v2 : α) (hnd : NodupKeys l)
    (hlk : alookup l k = some v) (hmem : (k, v2) ∈ l) : v2 = v := by
  induction l with
  | nil => simp at hmem
  | cons p rest ih =>
    obtain ⟨k1, v1⟩ := p
    simp only [NodupKeys, List.map_cons, List.nodup_cons] at hnd
    simp only [List.mem_cons] at hmem
    by_cases hk : k = k1
    · subst hk
      simp only [alookup, if_pos trivial] at hlk
      simp only [if_true, Option.some.injEq] at hlk
      rcases hmem with hmem | hmem
      · have hv21 : v2 = v1 := congrArg Prod.snd hmem
        exact hv21.trans hlk
      · exfalso
        exact hnd.1 (by
          simp only [List.mem_map]
          exact ⟨(k, v2), hmem, rfl⟩)
    · simp only [alookup, if_neg hk] at hlk
      rcases hmem with hmem | hmem
      · exfalso
        exact hk (congrArg Prod.fst hmem)
      · exact ih hnd.2 hlk hmem

/-- **C8.**  Cleanup only reclaims memory: (i) inserting a `cleanup_expired`
call leaves the result of every subsequent `should_send` call unchanged;
(ii) an entry removed by cleanup (one expired at cleanup time) is absent
afterwards, exactly like a never-observed signature; (iii) the cleaned state —
and hence everything observable from it, including `get_stats` — coincides
with the state obtained had the removed signature never been observed. -/
theorem dedup_cleanup_semantics (cfg : DeduplicationConfig) (s : DedupEntries) (t : ℤ)
    (hnd : NodupKeys s) :
    (∀ trace : List (DeduplicationKey × String × ℤ), (∀ p ∈ trace, t ≤ p.2.2) →
      AlertDeduplicator.runCalls cfg (AlertDeduplicator.cleanup_expired cfg s t) trace
        = AlertDeduplicator.runCalls cfg s trace) ∧
    (∀ (k : DeduplicationKey) (e : DeduplicationEntry),
      alookup s k = some e → e.is_expired cfg.window_secs t = true →
      alookup (AlertDeduplicator.cleanup_expired cfg s t) k = none) ∧
    (∀ (k : DeduplicationKey) (e : DeduplicationEntry),
      alookup s k = some e → e.is_expired cfg.window_secs t = true →
      AlertDeduplicator.cleanup_expired cfg s t
        = AlertDeduplicator.cleanup_expired cfg (aerase s k) t ∧
      AlertDeduplicator.get_stats (AlertDeduplicator.cleanup_expired cfg s t)
        = AlertDeduplicator.get_stats
            (AlertDeduplicator.cleanup_expired cfg (aerase s k) t)) := by
  refine ⟨?_, ?_, ?_⟩
  · intro trace htimes
    exact runCalls_of_rel cfg t trace s _ (cleanupRel_init cfg t s hnd) htimes
  · intro k e hlk hexp
    rw [AlertDeduplicator.cleanup_expired, alookup_filter _ s k hnd, hlk]
    simp [hexp]
  · intro k e hlk hexp
    have heq : AlertDeduplicator.cleanup_expired cfg s t
        = AlertDeduplicator.cleanup_expired cfg (aerase s k) t := by
      unfold AlertDeduplicator.cleanup_expired
      apply filter_of_fail_erase
      intro v hv
      have hveq : v = e := mem_of_alookup_nodup s k e v hnd hlk hv
      subst hveq
      simp [hexp]
    exact ⟨heq, congrArg AlertDeduplicator.get_stats heq⟩

/-- **C8 witness.** -/
theorem dedup_cleanup_semantics_witness :
    alookup
      (AlertDeduplicator.cleanup_expired ⟨300, true, 60⟩
        [(⟨"svc-B", "gpt-4", .CostAnomaly, .Medium⟩, ⟨0, 3, ["x", "y", "z"]⟩)] 301)
      ⟨"svc-B", "gpt-4", .CostAnomaly, .Medium⟩ = none :=
  (dedup_cleanup_semantics ⟨300, true, 60⟩
      [(⟨"svc-B", "gpt-4", .CostAnomaly, .Medium⟩, ⟨0, 3, ["x", "y", "z"]⟩)] 301
      (by simp [NodupKeys])).2.1
    ⟨"svc-B", "gpt-4", .CostAnomaly, .Medium⟩ ⟨0, 3, ["x", "y", "z"]⟩ rfl (by decide)

def dedupTestKey : DeduplicationKey := ⟨"svc-A", "gpt-4", .LatencySpike, .High⟩

/-- **C1 witness.** -/
theorem dedup_window_semantics_witness :
    AlertDeduplicator.should_send ⟨300, true, 60⟩ [] dedupTestKey "a1" 0
      = (true, aupdate [] dedupTestKey ⟨0, 1, ["a1"]⟩) :=
  (dedup_window_semantics ⟨300, true, 60⟩ dedupTestKey rfl).1 [] "a1" 0 rfl

/-! ### JSON serialization (serde derive semantics for `types.rs`)

The three enums derive `Serialize` with `rename_all = "lowercase"` /
`"snake_case"`.  serde's externally-tagged representation serializes a unit
variant as the plain string of its renamed name and a newtype variant such as
`Custom(String)` as a one-key object `{renamed_name: inner}`. -/

inductive Json where
  | str (s : String) : Json
  | obj (fields : List (String × Json)) : Json

def Severity.serialize : Severity → Json
  | .Low => .str "low"
  | .Medium => .str "medium"
  | .High => .str "high"
  | .Critical => .str "critical"

def AnomalyType.serialize : AnomalyType → Json
  | .LatencySpike => .str "latency_spike"
  | .ThroughputDegradation => .str "throughput_degradation"
  | .ErrorRateIncrease => .str "error_rate_increase"
  | .TokenUsageSpike => .str "token_usage_spike"
  | .CostAnomaly => .str "cost_anomaly"
  | .InputDrift => .str "input_drift"
  | .OutputDrift => .str "output_drift"
  | .ConceptDrift => .str "concept_drift"
  | .EmbeddingDrift => .str "embedding_drift"
  | .Hallucination => .str "hallucination"
  | .QualityDegradation => .str "quality_degradation"
  | .SecurityThreat => .str "security_threat"
  | .Custom s => .obj [("custom", .str s)]

def DetectionMethod.serialize : DetectionMethod → Json
  | .ZScore => .str "z_score"
  | .Iqr => .str "iqr"
  | .Mad => .str "mad"
  | .Cusum => .str "cusum"
  | .IsolationForest => .str "isolation_forest"
  | .LstmAutoencoder => .str "lstm_autoencoder"
  | .OneClassSvm => .str "one_class_svm"
  | .Psi => .str "psi"
  | .KlDivergence => .str "kl_divergence"
  | .LlmCheck => .str "llm_check"
  | .Rag => .str "rag"
  | .Custom s => .obj [("custom", .str s)]

/-- The `Display` renderings (`impl fmt::Display`), which *do* print the
`Custom` variants as their bare inner string. -/
def AnomalyType.display : AnomalyType → String
  | .LatencySpike => "latency_spike"
  | .ThroughputDegradation => "throughput_degradation"
  | .ErrorRateIncrease => "error_rate_increase"
  | .TokenUsageSpike => "token_usage_spike"
  | .CostAnomaly => "cost_anomaly"
  | .InputDrift => "input_drift"
  | .OutputDrift => "output_drift"
  | .ConceptDrift => "concept_drift"
  | .EmbeddingDrift => "embedding_drift"
  | .Hallucination => "hallucination"
  | .QualityDegradation => "quality_degradation"
  | .SecurityThreat => "security_threat"
  | .Custom s => s

def DetectionMethod.display : DetectionMethod → String
  | .ZScore => "z_score"
  | .Iqr => "iqr"
  | .Mad => "mad"
  | .Cusum => "cusum"
  | .IsolationForest => "isolation_forest"
  | .LstmAutoencoder => "lstm_autoencoder"
  | .OneClassSvm => "one_class_svm"
  | .Psi => "psi"
  | .KlDivergence => "kl_divergence"
  | .LlmCheck => "llm_check"
  | .Rag => "rag"
  | .Custom s => s

/-- Whether an `AnomalyType` is one of the closed (non-`Custom`) variants. -/
def AnomalyType.isClosed : AnomalyType → Bool
  | .Custom _ => false
  | _ => true

def DetectionMethod.isClosed : DetectionMethod → Bool
  | .Custom _ => false
  | _ => true

/-- **C7 counterexample.**  JSON serialization of `AnomalyType::Custom("test")`
is the externally-tagged object `{"custom": "test"}`, not the bare inner
string `"test"` (the bare string is only the `Display` rendering). -/
theorem anomalyType_custom_serialize_not_inner :
    AnomalyType.serialize (.Custom "test") ≠ Json.str "test" ∧
    AnomalyType.serialize (.Custom "test")
      = Json.obj [("custom", Json.str "test")] ∧
    AnomalyType.display (.Custom "test") = "test" := by
  refine ⟨?_, rfl, rfl⟩
  intro h
  exact Json.noConfusion h

/-- **C7** (amended).  Every `Severity` value serializes as its lowercase
name; every closed `AnomalyType` / `DetectionMethod` variant serializes as
its snake_case name, which equals its `Display` rendering; the `Custom`
variants serialize as the externally-tagged one-key object
`{"custom": inner}`, while their `Display` rendering is the bare inner
string. -/
theorem enum_serialization_contract :
    (Severity.serialize .Low = .str "low" ∧
      Severity.serialize .Medium = .str "medium" ∧
      Severity.serialize .High = .str "high" ∧
      Severity.serialize .Critical = .str "critical") ∧
    (∀ a : AnomalyType, a.isClosed = true → a.serialize = .str a.display) ∧
    (∀ d : DetectionMethod, d.isClosed = true → d.serialize = .str d.display) ∧
    (∀ s : String,
      AnomalyType.serialize (.Custom s) = .obj [("custom", .str s)] ∧
      DetectionMethod.serialize (.Custom s) = .obj [("custom", .str s)] ∧
      AnomalyType.display (.Custom s) = s ∧
      DetectionMethod.display (.Custom s) = s) := by
  refine ⟨⟨rfl, rfl, rfl, rfl⟩, ?_, ?_, ?_⟩
  · intro a hc
    cases a <;> simp_all [AnomalyType.isClosed, AnomalyType.serialize, AnomalyType.display]
  · intro d hc
    cases d <;> simp_all [DetectionMethod.isClosed, DetectionMethod.serialize,
      DetectionMethod.display]
  · intro s
    exact ⟨rfl, rfl, rfl, rfl⟩

/-- **C7 witness.** -/
theorem enum_serialization_contract_witness :
    AnomalyType.isClosed .LatencySpike = true ∧
    AnomalyType.serialize .LatencySpike = .str (AnomalyType.display .LatencySpike) :=
  ⟨rfl, enum_serialization_contract.2.1 .LatencySpike rfl⟩

/-! ### `detectors/zscore.rs` — severity ladder -/

namespace ZScoreDetector

/-- `ZScoreDetector::calculate_severity` (applied by the detector to `|z|`). -/
def calculate_severity (z_score : ℚ) : Severity :=
  if z_score ≥ 6 then .Critical
  else if z_score ≥ 4 then .High
  else if z_score ≥ 3 then .Medium
  else .Low

end ZScoreDetector

/-- **C6.**  The Z-Score severity is the ladder on the (absolute) z-score —
`≥ 6 → Critical`, `≥ 4 → High`, `≥ 3 → Medium`, else `Low` — and it is
monotone: for recorded z-scores `z1 < z2`, `severity(z1) ≤ severity(z2)` in
the `Low < Medium < High < Critical` order. -/
theorem zscore_severity_ladder_monotone :
    (∀ z : ℚ, 6 ≤ z → ZScoreDetector.calculate_severity z = .Critical) ∧
    (∀ z : ℚ, 4 ≤ z → z < 6 → ZScoreDetector.calculate_severity z = .High) ∧
    (∀ z : ℚ, 3 ≤ z → z < 4 → ZScoreDetector.calculate_severity z = .Medium) ∧
    (∀ z : ℚ, z < 3 → ZScoreDetector.calculate_severity z = .Low) ∧
    (∀ z1 z2 : ℚ, z1 < z2 →
      Severity.le (ZScoreDetector.calculate_severity z1)
        (ZScoreDetector.calculate_severity z2)) := by
  refine ⟨?_, ?_, ?_, ?_, ?_⟩
  · intro z h
    simp [ZScoreDetector.calculate_severity, h]
  · intro z h4 h6
    simp [ZScoreDetector.calculate_severity, h4, not_le.mpr h6]
  · intro z h3 h4
    have h6 : ¬ (6 : ℚ) ≤ z := not_le.mpr (lt_trans h4 (by norm_num))
    simp [ZScoreDetector.calculate_severity, h3, not_le.mpr h4, h6]
  · intro z h3
    have h4 : ¬ (4 : ℚ) ≤ z := not_le.mpr (lt_trans h3 (by norm_num))
    have h6 : ¬ (6 : ℚ) ≤ z := not_le.mpr (lt_trans h3 (by norm_num))
    simp [ZScoreDetector.calculate_severity, not_le.mpr h3, h4, h6]
  · intro z1 z2 hlt
    unfold ZScoreDetector.calculate_severity
    unfold Severity.le
    split_ifs <;> simp [Severity.toNat] <;> linarith

/-- **C6 witness.** -/
theorem zscore_severity_ladder_monotone_witness :
    ZScoreDetector.calculate_severity 7 = .Critical ∧
    Severity.le (ZScoreDetector.calculate_severity 3.5)
      (ZScoreDetector.calculate_severity 5) :=
  ⟨zscore_severity_ladder_monotone.1 7 (by norm_num),
    zscore_severity_ladder_monotone.2.2.2.2 3.5 5 (by norm_num)⟩

/-! ### `sentinel-detection/src/baseline.rs` -/

structure Baseline where
  mean : ℚ
  std_dev : ℚ
  median : ℚ
  mad : ℚ
  q1 : ℚ
  q3 : ℚ
  iqr : ℚ
  p95 : ℚ
  p99 : ℚ
  min : ℚ
  max : ℚ
  sample_count : ℕ
deriving DecidableEq

namespace Baseline

/-- `Baseline::empty` -/
def empty : Baseline := ⟨0, 0, 0, 0, 0, 0, 0, 0, 0, 0, 0, 0⟩

/-- `Baseline::from_data` -/
def from_data (sqrtFn : ℚ → ℚ) (data : List ℚ) : Baseline :=
  if data = [] then empty
  else
    { mean := LlmSentinel.mean data
      std_dev := LlmSentinel.std_dev sqrtFn data
      median := LlmSentinel.median data
      mad := LlmSentinel.mad data
      q1 := (LlmSentinel.iqr data).1
      q3 := (LlmSentinel.iqr data).2.1
      iqr := (LlmSentinel.iqr data).2.2
      p95 := LlmSentinel.percentile data 95
      p99 := LlmSentinel.percentile data 99
      min := minList data
      max := maxList data
      sample_count := data.length }

/-- `Baseline::is_valid`: at least 10 samples. -/
def is_valid (b : Baseline) : Bool := decide (b.sample_count ≥ 10)

end Baseline

structure BaselineKey where
  service : String
  model : String
  metric : String
deriving DecidableEq

namespace BaselineKey

def latency (service model : String) : BaselineKey := ⟨service, model, "latency_ms"⟩

def tokens (service model : String) : BaselineKey := ⟨service, model, "total_tokens"⟩

def cost (service model : String) : BaselineKey := ⟨service, model, "cost_usd"⟩

def error_rate (service model : String) : BaselineKey := ⟨service, model, "error_rate"⟩

end BaselineKey

structure BaselineManager where
  window_size : ℕ
  windows : List (BaselineKey × RollingWindow)
  baselines : List (BaselineKey × Baseline)
deriving DecidableEq

namespace BaselineManager

/-- `BaselineManager::new` -/
def new (window_size : ℕ) : BaselineManager := ⟨window_size, [], []⟩

/-- `BaselineManager::update`: get-or-create the key's rolling window, push
the value (`none` models the capacity-0 push panic), and when the window is
full afterwards recompute and cache the baseline snapshot. -/
def update (sqrtFn : ℚ → ℚ) (m : BaselineManager) (key : BaselineKey) (value : ℚ) :
    Option BaselineManager :=
  let window := (alookup m.windows key).getD (RollingWindow.new m.window_size)
  match window.push? value with
  | none => none
  | some w1 =>
    if w1.is_full then
      some ⟨m.window_size, aupdate m.windows key w1,
        aupdate m.baselines key (Baseline.from_data sqrtFn w1.data)⟩
    else some ⟨m.window_size, aupdate m.windows key w1, m.baselines⟩

/-- `BaselineManager::get` -/
def get (m : BaselineManager) (key : BaselineKey) : Option Baseline :=
  alookup m.baselines key

/-- `BaselineManager::has_valid_baseline` -/
def has_valid_baseline (m : BaselineManager) (key : BaselineKey) : Bool :=
  ((m.get key).map Baseline.is_valid).getD false

/-- `BaselineManager::clear` -/
def clear (m : BaselineManager) (key : BaselineKey) : BaselineManager :=
  ⟨m.window_size, aerase m.windows key, aerase m.baselines key⟩

/-- `BaselineManager::clear_all` -/
def clear_all (m : BaselineManager) : BaselineManager := ⟨m.window_size, [], []⟩

end BaselineManager

/-! ### `sentinel-core/src/events.rs` (the fields the detection path reads)

Event/alert ids, timestamps, prompt/response text, trace ids, metadata and
the context/remediation bookkeeping of `AnomalyEvent` play no role in any
verified property and are elided. -/

structure TelemetryEvent where
  service_name : String
  model : String
  prompt_tokens : ℕ
  response_tokens : ℕ
  latency_ms : ℚ
  cost_usd : ℚ
deriving DecidableEq

/-- `TelemetryEvent::total_tokens` -/
def TelemetryEvent.total_tokens (e : TelemetryEvent) : ℕ :=
  e.prompt_tokens + e.response_tokens

structure AnomalyDetails where
  metric : String
  value : ℚ
  baseline : ℚ
  threshold : ℚ
  deviation_sigma : Option ℚ
deriving DecidableEq

structure AnomalyEvent where
  severity : Severity
  anomaly_type : AnomalyType
  service_name : String
  model : String
  detection_method : DetectionMethod
  confidence : ℚ
  details : AnomalyDetails
deriving DecidableEq

/-- The baseline key an anomaly is about. -/
def anomalyKey (a : AnomalyEvent) : BaselineKey :=
  ⟨a.service_name, a.model, a.details.metric⟩

/-- The value an event carries for a given metric name. -/
def eventMetricValue (e : TelemetryEvent) (metric : String) : ℚ :=
  if metric = "latency_ms" then e.latency_ms
  else if metric = "total_tokens" then (e.total_tokens : ℚ)
  else e.cost_usd

/-! ### `sentinel-detection/src/detectors` -/

/-- `detectors::DetectionConfig` (common per-detector config). -/
structure DetectionConfig where
  min_samples : ℕ
  update_baseline : Bool
deriving DecidableEq

structure ZScoreConfig where
  threshold : ℚ
  detection : DetectionConfig
deriving DecidableEq

structure IqrConfig where
  multiplier : ℚ
  detection : DetectionConfig
deriving DecidableEq

structure MadConfig where
  threshold : ℚ
  detection : DetectionConfig
deriving DecidableEq

structure CusumConfig where
  threshold : ℚ
  slack : ℚ
  detection : DetectionConfig
deriving DecidableEq

/-- `f64::clamp(lo, hi)` -/
def clampQ (x lo hi : ℚ) : ℚ := if x < lo then lo else if x > hi then hi else x

namespace ZScoreDetector

/-- `ZScoreDetector::calculate_confidence`.  (The ℚ convention `1/0 = 0`
differs from IEEE only at `z = threshold − 1`, which is unreachable from the
emission guard `z > threshold`.) -/
def calculate_confidence (cfg : ZScoreConfig) (z_score : ℚ) : ℚ :=
  clampQ (1 - 1 / (1 + (z_score - cfg.threshold))) 0.5 0.99

/-- `ZScoreDetector::detect_latency` (`.unwrap()` after the validity guard is
modelled by `getD Baseline.empty`, unreachable when the guard holds). -/
def detect_latency (cfg : ZScoreConfig) (m : BaselineManager) (e : TelemetryEvent) :
    Option AnomalyEvent :=
  let key := BaselineKey.latency e.service_name e.model
  if !(m.has_valid_baseline key) then none
  else
    let baseline := (m.get key).getD Baseline.empty
    let latency := e.latency_ms
    let z := zscore latency baseline.mean baseline.std_dev
    if |z| > cfg.threshold then
      some
        { severity := calculate_severity |z|
          anomaly_type := .LatencySpike
          service_name := e.service_name
          model := e.model
          detection_method := .ZScore
          confidence := calculate_confidence cfg |z|
          details :=
            { metric := "latency_ms"
              value := latency
              baseline := baseline.mean
              threshold := baseline.mean + cfg.threshold * baseline.std_dev
              deviation_sigma := some |z| } }
    else none

/-- `ZScoreDetector::detect_tokens` -/
def detect_tokens (cfg : ZScoreConfig) (m : BaselineManager) (e : TelemetryEvent) :
    Option AnomalyEvent :=
  let key := BaselineKey.tokens e.service_name e.model
  if !(m.has_valid_baseline key) then none
  else
    let baseline := (m.get key).getD Baseline.empty
    let tokens := (e.total_tokens : ℚ)
    let z := zscore tokens baseline.mean baseline.std_dev
    if |z| > cfg.threshold then
      some
        { severity := calculate_severity |z|
          anomaly_type := .TokenUsageSpike
          service_name := e.service_name
          model := e.model
          detection_method := .ZScore
          confidence := calculate_confidence cfg |z|
          details :=
            { metric := "total_tokens"
              value := tokens
              baseline := baseline.mean
              threshold := baseline.mean + cfg.threshold * baseline.std_dev
              deviation_sigma := some |z| } }
    else none

/-- `ZScoreDetector::detect_cost` -/
def detect_cost (cfg : ZScoreConfig) (m : BaselineManager) (e : TelemetryEvent) :
    Option AnomalyEvent :=
  let key := BaselineKey.cost e.service_name e.model
  if !(m.has_valid_baseline key) then none
  else
    let baseline := (m.get key).getD Baseline.empty
    let cost := e.cost_usd
    let z := zscore cost baseline.mean baseline.std_dev
    if |z| > cfg.threshold then
      some
        { severity := calculate_severity |z|
          anomaly_type := .CostAnomaly
          service_name := e.service_name
          model := e.model
          detection_method := .ZScore
          confidence := calculate_confidence cfg |z|
          details :=
            { metric := "cost_usd"
              value := cost
              baseline := baseline.mean
              threshold := baseline.mean + cfg.threshold * baseline.std_dev
              deviation_sigma := some |z| } }
    else none

/-- `ZScoreDetector::detect`: first hit among latency, tokens, cost. -/
def detect (cfg : ZScoreConfig) (m : BaselineManager) (e : TelemetryEvent) :
    Option AnomalyEvent :=
  match detect_latency cfg m e with
  | some a => some a
  | none =>
    match detect_tokens cfg m e with
    | some a => some a
    | none => detect_cost cfg m e

/-- `ZScoreDetector::update`: folds the event's latency, token and cost
values into the shared baseline store (when `update_baseline` is on). -/
def update (sqrtFn : ℚ → ℚ) (cfg : ZScoreConfig) (m : BaselineManager)
    (e : TelemetryEvent) : Option BaselineManager :=
  if !cfg.detection.update_baseline then some m
  else
    match m.update sqrtFn (BaselineKey.latency e.service_name e.model) e.latency_ms with
    | none => none
    | some m1 =>
      match m1.update sqrtFn (BaselineKey.tokens e.service_name e.model)
          (e.total_tokens : ℚ) with
      | none => none
      | some m2 => m2.update sqrtFn (BaselineKey.cost e.service_name e.model) e.cost_usd

end ZScoreDetector

namespace IqrDetector

/-- `IqrDetector::calculate_severity` -/
def calculate_severity (cfg : IqrConfig) (value : ℚ) (baseline : Baseline) : Severity :=
  let upper_bound := baseline.q3 + cfg.multiplier * baseline.iqr
  let extreme_bound := baseline.q3 + 3 * baseline.iqr
  if value > extreme_bound then .Critical
  else if value > upper_bound * 1.5 then .High
  else if value > upper_bound then .Medium
  else .Low

/-- `IqrDetector::calculate_confidence`.  (ℚ division by zero yields 0; IEEE
would give ±∞ when `baseline.iqr = 0` — that corner affects only the
confidence value, about which nothing is claimed.) -/
def calculate_confidence (cfg : IqrConfig) (value : ℚ) (baseline : Baseline) : ℚ :=
  let upper_bound := baseline.q3 + cfg.multiplier * baseline.iqr
  let distance_ratio := (value - upper_bound) / baseline.iqr
  clampQ (0.7 + min distance_ratio 3 * 0.1) 0.7 0.99

/-- `IqrDetector::detect_latency` -/
def detect_latency (cfg : IqrConfig) (m : BaselineManager) (e : TelemetryEvent) :
    Option AnomalyEvent :=
  let key := BaselineKey.latency e.service_name e.model
  if !(m.has_valid_baseline key) then none
  else
    let baseline := (m.get key).getD Baseline.empty
    let latency := e.latency_ms
    if is_iqr_outlier latency baseline.q1 baseline.q3 baseline.iqr cfg.multiplier then
      some
        { severity := calculate_severity cfg latency baseline
          anomaly_type := .LatencySpike
          service_name := e.service_name
          model := e.model
          detection_method := .Iqr
          confidence := calculate_confidence cfg latency baseline
          details :=
            { metric := "latency_ms"
              value := latency
              baseline := baseline.median
              threshold := baseline.q3 + cfg.multiplier * baseline.iqr
              deviation_sigma := none } }
    else none

/-- `IqrDetector::detect` -/
def detect (cfg : IqrConfig) (m : BaselineManager) (e : TelemetryEvent) :
    Option AnomalyEvent :=
  detect_latency cfg m e

/-- `IqrDetector::update` -/
def update (sqrtFn : ℚ → ℚ) (cfg : IqrConfig) (m : BaselineManager)
    (e : TelemetryEvent) : Option BaselineManager :=
  if !cfg.detection.update_baseline then some m
  else m.update sqrtFn (BaselineKey.latency e.service_name e.model) e.latency_ms

end IqrDetector

namespace MadDetector

/-- `MadDetector::detect_latency` -/
def detect_latency (cfg : MadConfig) (m : BaselineManager) (e : TelemetryEvent) :
    Option AnomalyEvent :=
  let key := BaselineKey.latency e.service_name e.model
  if !(m.has_valid_baseline key) then none
  else
    let baseline := (m.get key).getD Baseline.empty
    let latency := e.latency_ms
    if is_mad_outlier latency baseline.median baseline.mad cfg.threshold then
      let severity := if latency > baseline.p99 then Severity.High else Severity.Medium
      let modified_zscore :=
        if baseline.mad > 0 then 0.6745 * |latency - baseline.median| / baseline.mad
        else 0
      let confidence := min (modified_zscore / cfg.threshold) 0.99
      some
        { severity := severity
          anomaly_type := .LatencySpike
          service_name := e.service_name
          model := e.model
          detection_method := .Mad
          confidence := confidence
          details :=
            { metric := "latency_ms"
              value := latency
              baseline := baseline.median
              threshold := baseline.median + cfg.threshold * baseline.mad
              deviation_sigma := some modified_zscore } }
    else none

/-- `MadDetector::detect` -/
def detect (cfg : MadConfig) (m : BaselineManager) (e : TelemetryEvent) :
    Option AnomalyEvent :=
  detect_latency cfg m e

/-- `MadDetector::update` -/
def update (sqrtFn : ℚ → ℚ) (cfg : MadConfig) (m : BaselineManager)
    (e : TelemetryEvent) : Option BaselineManager :=
  if !cfg.detection.update_baseline then some m
  else m.update sqrtFn (BaselineKey.latency e.service_name e.model) e.latency_ms

end MadDetector

/-! ### `detectors/cusum.rs` -/

structure CusumState where
  cusum_pos : ℚ
  cusum_neg : ℚ
  count : ℕ
deriving DecidableEq

/-- `CusumState::new` (also the value `reset` restores). -/
def CusumState.new : CusumState := ⟨0, 0, 0⟩

/-- The `states` DashMap of `CusumDetector`. -/
abbrev CusumStates := List (BaselineKey × CusumState)

namespace CusumDetector

/-- `CusumDetector::detect_cost_drift`: updates the per-key CUSUM pair from
the cost deviation, emits when a threshold is breached (resetting the stored
state to zero), otherwise stores the accumulated state. -/
def detect_cost_drift (cfg : CusumConfig) (m : BaselineManager) (states : CusumStates)
    (e : TelemetryEvent) : Option AnomalyEvent × CusumStates :=
  let key := BaselineKey.cost e.service_name e.model
  if !(m.has_valid_baseline key) then (none, states)
  else
    let baseline := (m.get key).getD Baseline.empty
    let cost := e.cost_usd
    let state := (alookup states key).getD CusumState.new
    let deviation := cost - baseline.mean
    let pos := max (state.cusum_pos + deviation - cfg.slack) 0
    let neg := min (state.cusum_neg + deviation + cfg.slack) 0
    if pos > cfg.threshold ∨ |neg| > cfg.threshold then
      (some
        { severity := if pos > cfg.threshold * 2 then .High else .Medium
          anomaly_type := .CostAnomaly
          service_name := e.service_name
          model := e.model
          detection_method := .Cusum
          confidence := min (max pos |neg| / cfg.threshold) 0.95
          details :=
            { metric := "cost_usd"
              value := cost
              baseline := baseline.mean
              threshold := baseline.mean + cfg.slack
              deviation_sigma := none } },
        aupdate states key ⟨0, 0, 0⟩)
    else (none, aupdate states key ⟨pos, neg, state.count + 1⟩)

/-- `CusumDetector::detect`: `clone_for_detection` clones the detector but
shares the `states` map through an `Arc`, so the takes-`&self` `detect`
mutates the very same per-key state as `detect_cost_drift`. -/
def detect (cfg : CusumConfig) (m : BaselineManager) (states : CusumStates)
    (e : TelemetryEvent) : Option AnomalyEvent × CusumStates :=
  detect_cost_drift cfg m states e

/-- `CusumDetector::update` -/
def update (sqrtFn : ℚ → ℚ) (cfg : CusumConfig) (m : BaselineManager)
    (e : TelemetryEvent) : Option BaselineManager :=
  if !cfg.detection.update_baseline then some m
  else m.update sqrtFn (BaselineKey.cost e.service_name e.model) e.cost_usd

end CusumDetector

/-! ### `sentinel-detection/src/engine.rs` -/

structure EngineConfig where
  enable_zscore : Bool
  zscore_config : ZScoreConfig
  enable_iqr : Bool
  iqr_config : IqrConfig
  enable_mad : Bool
  mad_config : MadConfig
  enable_cusum : Bool
  cusum_config : CusumConfig
  baseline_window_size : ℕ
  continuous_learning : Bool
deriving DecidableEq

inductive DetectorKind where
  | zscore
  | iqr
  | mad
  | cusum
deriving DecidableEq

/-- The detectors `DetectionEngine::new` instantiates, in construction
order. -/
def enabledDetectors (c : EngineConfig) : List DetectorKind :=
  (if c.enable_zscore then [.zscore] else []) ++
  (if c.enable_iqr then [.iqr] else []) ++
  (if c.enable_mad then [.mad] else []) ++
  (if c.enable_cusum then [.cusum] else [])

/-- The mutable state of a `DetectionEngine` (baseline store shared by all
detectors, plus CUSUM's per-key state map).  The engine's metrics counters
and `EngineStats` are observability only and are elided. -/
structure EngineState where
  manager : BaselineManager
  cusum_states : CusumStates
deriving DecidableEq

namespace DetectionEngine

/-- `DetectionEngine::new`: builds the enabled detectors and refuses an empty
ensemble with a configuration error.  No other construction-time check
exists (in particular, `baseline_window_size` is not validated). -/
def new (c : EngineConfig) : Except String EngineState :=
  if enabledDetectors c = [] then .error "No detectors enabled"
  else .ok ⟨BaselineManager.new c.baseline_window_size, []⟩

/-- One `Detector::detect` dispatch. -/
def runDetector (c : EngineConfig) (d : DetectorKind) (s : EngineState)
    (e : TelemetryEvent) : Option AnomalyEvent × EngineState :=
  match d with
  | .zscore => (ZScoreDetector.detect c.zscore_config s.manager e, s)
  | .iqr => (IqrDetector.detect c.iqr_config s.manager e, s)
  | .mad => (MadDetector.detect c.mad_config s.manager e, s)
  | .cusum =>
    let r := CusumDetector.detect c.cusum_config s.manager s.cusum_states e
    (r.1, ⟨s.manager, r.2⟩)

/-- The engine's detection loop: run detectors in order, short-circuit on the
first hit. -/
def detectList (c : EngineConfig) (e : TelemetryEvent) :
    List DetectorKind → EngineState → Option AnomalyEvent × EngineState
  | [], s => (none, s)
  | d :: rest, s =>
    let r := runDetector c d s e
    match r.1 with
    | some a => (some a, r.2)
    | none => detectList c e rest r.2

/-- `DetectionEngine::detect` -/
def detect (c : EngineConfig) (s : EngineState) (e : TelemetryEvent) :
    Option AnomalyEvent × EngineState :=
  detectList c e (enabledDetectors c) s

/-- One `Detector::update` dispatch. -/
def updateDetector (sqrtFn : ℚ → ℚ) (c : EngineConfig) (d : DetectorKind)
    (m : BaselineManager) (e : TelemetryEvent) : Option BaselineManager :=
  match d with
  | .zscore => ZScoreDetector.update sqrtFn c.zscore_config m e
  | .iqr => IqrDetector.update sqrtFn c.iqr_config m e
  | .mad => MadDetector.update sqrtFn c.mad_config m e
  | .cusum => CusumDetector.update sqrtFn c.cusum_config m e

/-- `DetectionEngine::update`'s loop over every enabled detector. -/
def updateList (sqrtFn : ℚ → ℚ) (c : EngineConfig) (e : TelemetryEvent) :
    List DetectorKind → BaselineManager → Option BaselineManager
  | [], m => some m
  | d :: rest, m =>
    match updateDetector sqrtFn c d m e with
    | none => none
    | some m1 => updateList sqrtFn c e rest m1

/-- `DetectionEngine::update`: a no-op unless `continuous_learning`; detector
errors are logged and skipped, but `BaselineManager::update` is infallible —
its only failure mode is the capacity-0 push panic, which propagates. -/
def update (sqrtFn : ℚ → ℚ) (c : EngineConfig) (s : EngineState)
    (e : TelemetryEvent) : Option EngineState :=
  if !c.continuous_learning then some s
  else
    match updateList sqrtFn c e (enabledDetectors c) s.manager with
    | none => none
    | some m1 => some ⟨m1, s.cusum_states⟩

/-- `DetectionEngine::process`: detect first, then update baselines even when
an anomaly was detected. -/
def process (sqrtFn : ℚ → ℚ) (c : EngineConfig) (s : EngineState)
    (e : TelemetryEvent) : Option (Option AnomalyEvent × EngineState) :=
  let r := detect c s e
  match update sqrtFn c r.2 e with
  | none => none
  | some s2 => some (r.1, s2)

end DetectionEngine

/-! Helper: the two branches of `detect_cost_drift` under a valid baseline. -/

theorem detect_cost_drift_cases (cfg : CusumConfig) (m : BaselineManager)
    (states : CusumStates) (e : TelemetryEvent) (st : CusumState) (pos neg : ℚ)
    (hvb : m.has_valid_baseline (BaselineKey.cost e.service_name e.model) = true)
    (hst : (alookup states (BaselineKey.cost e.service_name e.model)).getD
      CusumState.new = st)
    (hpos : pos = max (st.cusum_pos +
      (e.cost_usd - ((m.get (BaselineKey.cost e.service_name e.model)).getD
        Baseline.empty).mean) - cfg.slack) 0)
    (hneg : neg = min (st.cusum_neg +
      (e.cost_usd - ((m.get (BaselineKey.cost e.service_name e.model)).getD
        Baseline.empty).mean) + cfg.slack) 0) :
    ((pos > cfg.threshold ∨ |neg| > cfg.threshold) →
      (CusumDetector.detect_cost_drift cfg m states e).1.isSome = true ∧
      (CusumDetector.detect_cost_drift cfg m states e).2
        = aupdate states (BaselineKey.cost e.service_name e.model) ⟨0, 0, 0⟩) ∧
    (¬(pos > cfg.threshold ∨ |neg| > cfg.threshold) →
      (CusumDetector.detect_cost_drift cfg m states e).1 = none ∧
      (CusumDetector.detect_cost_drift cfg m states e).2
        = aupdate states (BaselineKey.cost e.service_name e.model)
            ⟨pos, neg, st.count + 1⟩) := by
  subst hst hpos hneg
  constructor
  · intro hcond
    unfold CusumDetector.detect_cost_drift
    simp only [hvb, Bool.not_true, Bool.false_eq_true, if_false]
    rw [if_pos hcond]
    exact ⟨rfl, rfl⟩
  · intro hcond
    unfold CusumDetector.detect_cost_drift
    simp only [hvb, Bool.not_true, Bool.false_eq_true, if_false]
    rw [if_neg hcond]
    exact ⟨rfl, rfl⟩

/-- **C2.**  Under a valid cost baseline, a CUSUM detection step over
`cost_usd` updates the per-key state by
`S⁺ := max(0, S⁺ + (x − μ) − k)` and `S⁻ := min(0, S⁻ + (x − μ) + k)` — so
`S⁺ ≥ 0` and `S⁻ ≤ 0` always hold (also initially) — emits an anomaly exactly
when `S⁺ > h` or `|S⁻| > h`, resets the stored state to `(0, 0, 0)` on
emission, and otherwise stores `(S⁺, S⁻, count + 1)`. -/
theorem cusum_update_emit_reset (cfg : CusumConfig) (m : BaselineManager)
    (states : CusumStates) (e : TelemetryEvent) (st : CusumState) (pos neg : ℚ)
    (hvb : m.has_valid_baseline (BaselineKey.cost e.service_name e.model) = true)
    (hst : (alookup states (BaselineKey.cost e.service_name e.model)).getD
      CusumState.new = st)
    (hpos : pos = max (st.cusum_pos +
      (e.cost_usd - ((m.get (BaselineKey.cost e.service_name e.model)).getD
        Baseline.empty).mean) - cfg.slack) 0)
    (hneg : neg = min (st.cusum_neg +
      (e.cost_usd - ((m.get (BaselineKey.cost e.service_name e.model)).getD
        Baseline.empty).mean) + cfg.slack) 0) :
    (0 ≤ pos ∧ neg ≤ 0 ∧
      0 ≤ CusumState.new.cusum_pos ∧ CusumState.new.cusum_neg ≤ 0) ∧
    ((CusumDetector.detect_cost_drift cfg m states e).1.isSome = true ↔
      (pos > cfg.threshold ∨ |neg| > cfg.threshold)) ∧
    ((CusumDetector.detect_cost_drift cfg m states e).1.isSome = true →
      alookup (CusumDetector.detect_cost_drift cfg m states e).2
        (BaselineKey.cost e.service_name e.model) = some ⟨0, 0, 0⟩) ∧
    ((CusumDetector.detect_cost_drift cfg m states e).1 = none →
      alookup (CusumDetector.detect_cost_drift cfg m states e).2
        (BaselineKey.cost e.service_name e.model)
        = some ⟨pos, neg, st.count + 1⟩) := by
  have hc := detect_cost_drift_cases cfg m states e st pos neg hvb hst hpos hneg
  refine ⟨⟨?_, ?_, le_refl 0, le_refl 0⟩, ?_, ?_, ?_⟩
  · rw [hpos]
    exact le_max_right _ 0
  · rw [hneg]
    exact min_le_right _ 0
  · constructor
    · intro hsome
      by_cases hcond : pos > cfg.threshold ∨ |neg| > cfg.threshold
      · exact hcond
      · rw [(hc.2 hcond).1] at hsome
        simp at hsome
    · intro hcond
      exact (hc.1 hcond).1
  · intro hsome
    by_cases hcond : pos > cfg.threshold ∨ |neg| > cfg.threshold
    · rw [(hc.1 hcond).2]
      exact alookup_aupdate_self _ _ _
    · rw [(hc.2 hcond).1] at hsome
      simp at hsome
  · intro hnone
    by_cases hcond : pos > cfg.threshold ∨ |neg| > cfg.threshold
    · exfalso
      have hs := (hc.1 hcond).1
      rw [hnone] at hs
      simp at hs
    · rw [(hc.2 hcond).2]
      exact alookup_aupdate_self _ _ _

/-- A baseline record with `sample_count = 10` and mean 0, used as a concrete
valid cost baseline for witnesses. -/
def flatBaseline10 : Baseline := ⟨0, 0, 0, 0, 0, 0, 0, 0, 0, 0, 0, 10⟩

def cusumTestCfg : CusumConfig := ⟨5, 1/2, ⟨10, true⟩⟩

def cusumTestMgr : BaselineManager :=
  ⟨10, [], [(BaselineKey.cost "svc" "gpt-4", flatBaseline10)]⟩

def cusumTestEvent : TelemetryEvent := ⟨"svc", "gpt-4", 0, 0, 0, 7⟩

/-- **C2 witness.** -/
theorem cusum_update_emit_reset_witness :
    alookup
      (CusumDetector.detect_cost_drift cusumTestCfg cusumTestMgr [] cusumTestEvent).2
      (BaselineKey.cost "svc" "gpt-4") = some ⟨0, 0, 0⟩ := by
  have h := cusum_update_emit_reset cusumTestCfg cusumTestMgr [] cusumTestEvent
    CusumState.new (13/2) 0 (by decide) rfl
    (by norm_num [cusumTestMgr, cusumTestEvent, cusumTestCfg, flatBaseline10,
      CusumState.new, BaselineManager.get, alookup, BaselineKey.cost, max_def])
    (by norm_num [cusumTestMgr, cusumTestEvent, cusumTestCfg, flatBaseline10,
      CusumState.new, BaselineManager.get, alookup, BaselineKey.cost, min_def])
  exact h.2.2.1 (h.2.1.mpr (Or.inl (by norm_num [cusumTestCfg])))

def c9event : TelemetryEvent := ⟨"svc", "gpt-4", 0, 0, 0, 7/2⟩

/-- **C9.**  `CusumDetector::detect` is not side-effect-free: through the
`Arc`-shared state map of `clone_for_detection`, a call under a valid cost
baseline that returns `None` still increments the per-key count and
accumulates the CUSUM sums, leaving a state different from before; and
concretely, calling `detect` twice with the same event from the same state
can return `None` first and an anomaly second. -/
theorem cusum_detect_frame_effect (cfg : CusumConfig) (m : BaselineManager)
    (states : CusumStates) (e : TelemetryEvent)
    (hvb : m.has_valid_baseline (BaselineKey.cost e.service_name e.model) = true)
    (hnone : (CusumDetector.detect cfg m states e).1 = none) :
    (∃ st1 : CusumState,
      alookup (CusumDetector.detect cfg m states e).2
        (BaselineKey.cost e.service_name e.model) = some st1 ∧
      st1.count = ((alookup states (BaselineKey.cost e.service_name e.model)).getD
        CusumState.new).count + 1) ∧
    alookup (CusumDetector.detect cfg m states e).2
        (BaselineKey.cost e.service_name e.model)
      ≠ alookup states (BaselineKey.cost e.service_name e.model) ∧
    ((CusumDetector.detect cusumTestCfg cusumTestMgr [] c9event).1 = none ∧
      ((CusumDetector.detect cusumTestCfg cusumTestMgr
        (CusumDetector.detect cusumTestCfg cusumTestMgr [] c9event).2
        c9event).1).isSome = true) := by
  have hc := detect_cost_drift_cases cfg m states e
    ((alookup states (BaselineKey.cost e.service_name e.model)).getD CusumState.new)
    _ _ hvb rfl rfl rfl
  by_cases hcond : max (((alookup states (BaselineKey.cost e.service_name e.model)).getD
        CusumState.new).cusum_pos +
      (e.cost_usd - ((m.get (BaselineKey.cost e.service_name e.model)).getD
        Baseline.empty).mean) - cfg.slack) 0 > cfg.threshold ∨
      |min (((alookup states (BaselineKey.cost e.service_name e.model)).getD
        CusumState.new).cusum_neg +
      (e.cost_usd - ((m.get (BaselineKey.cost e.service_name e.model)).getD
        Baseline.empty).mean) + cfg.slack) 0| > cfg.threshold
  · exfalso
    have := (hc.1 hcond).1
    unfold CusumDetector.detect at hnone
    rw [hnone] at this
    simp at this
  · have hstep := (hc.2 hcond).2
    unfold CusumDetector.detect at hstep ⊢
    rw [hstep, alookup_aupdate_self]
    refine ⟨⟨_, rfl, rfl⟩, ?_,
      by norm_num [CusumDetector.detect, CusumDetector.detect_cost_drift,
        cusumTestCfg, cusumTestMgr, c9event, flatBaseline10, CusumState.new,
        BaselineManager.get, BaselineManager.has_valid_baseline, Baseline.is_valid,
        Baseline.empty, alookup, aupdate, BaselineKey.cost, max_def, min_def],
      by norm_num [CusumDetector.detect, CusumDetector.detect_cost_drift,
        cusumTestCfg, cusumTestMgr, c9event, flatBaseline10, CusumState.new,
        BaselineManager.get, BaselineManager.has_valid_baseline, Baseline.is_valid,
        Baseline.empty, alookup, aupdate, BaselineKey.cost, max_def, min_def]⟩
    cases hold : alookup states (BaselineKey.cost e.service_name e.model) with
    | none => simp
    | some stOld =>
      intro hcontra
      have h3 := congrArg CusumState.count (Option.some.inj hcontra)
      simp only [Option.getD_some] at h3
      omega

/-- **C9 witness.** -/
theorem cusum_detect_frame_effect_witness :
    alookup (CusumDetector.detect cusumTestCfg cusumTestMgr [] c9event).2
        (BaselineKey.cost "svc" "gpt-4")
      ≠ alookup ([] : CusumStates) (BaselineKey.cost "svc" "gpt-4") :=
  (cusum_detect_frame_effect cusumTestCfg cusumTestMgr [] c9event
    (by decide)
    (by norm_num [CusumDetector.detect, CusumDetector.detect_cost_drift,
      cusumTestCfg, cusumTestMgr, c9event, flatBaseline10, CusumState.new,
      BaselineManager.get, BaselineManager.has_valid_baseline, Baseline.is_valid,
      Baseline.empty, alookup, aupdate, BaselineKey.cost, max_def, min_def])).2.1

/-- **C10.**  Whenever the MAD detector emits a latency anomaly (with a
positive configured threshold, default 3.5), its confidence is exactly 0.99:
emission requires `mad ≠ 0` and modified z-score strictly above the
threshold, so `min(m/threshold, 0.99)` always clamps to 0.99. -/
theorem mad_emitted_confidence (cfg : MadConfig) (m : BaselineManager)
    (e : TelemetryEvent) (a : AnomalyEvent)
    (hthr : 0 < cfg.threshold)
    (hdet : MadDetector.detect_latency cfg m e = some a) :
    a.confidence = 0.99 := by
  by_cases hv : m.has_valid_baseline (BaselineKey.latency e.service_name e.model) = true
  · have hv2 : (!m.has_valid_baseline (BaselineKey.latency e.service_name e.model)) = false := by
      rw [hv]
      rfl
    unfold MadDetector.detect_latency at hdet
    simp only [hv2, Bool.false_eq_true, if_false] at hdet
    set b := (m.get (BaselineKey.latency e.service_name e.model)).getD Baseline.empty with hb
    by_cases hout : is_mad_outlier e.latency_ms b.median b.mad cfg.threshold = true
    · rw [if_pos hout] at hdet
      unfold is_mad_outlier at hout
      by_cases hmz : b.mad = 0
      · rw [if_pos hmz] at hout
        exact absurd hout (by simp)
      · rw [if_neg hmz] at hout
        have hgt : 0.6745 * |e.latency_ms - b.median| / b.mad > cfg.threshold :=
          of_decide_eq_true hout
        have hmadpos : 0 < b.mad := by
          rcases lt_or_gt_of_ne hmz with hneg2 | hpos2
          · exfalso
            have hnum : 0 ≤ 0.6745 * |e.latency_ms - b.median| := by positivity
            have : 0.6745 * |e.latency_ms - b.median| / b.mad ≤ 0 :=
              div_nonpos_iff.mpr (Or.inl ⟨hnum, le_of_lt hneg2⟩)
            linarith
          · exact hpos2
        have hconf := congrArg AnomalyEvent.confidence (Option.some.inj hdet)
        simp only at hconf
        rw [← hconf]
        have hmz2 : (if b.mad > 0 then 0.6745 * |e.latency_ms - b.median| / b.mad else 0)
            = 0.6745 * |e.latency_ms - b.median| / b.mad := if_pos hmadpos
        rw [hmz2]
        have hdivgt : (1 : ℚ) < 0.6745 * |e.latency_ms - b.median| / b.mad / cfg.threshold := by
          rw [lt_div_iff₀ hthr]
          linarith
        rw [min_eq_right (by linarith)]
    · rw [if_neg hout] at hdet
      exact absurd hdet (by simp)
  · have hv2 : (!m.has_valid_baseline (BaselineKey.latency e.service_name e.model)) = true := by
      cases h : m.has_valid_baseline (BaselineKey.latency e.service_name e.model)
      · rfl
      · exact absurd h hv
    unfold MadDetector.detect_latency at hdet
    rw [if_pos hv2] at hdet
    exact absurd hdet (by simp)

def madTestCfg : MadConfig := ⟨7/2, ⟨10, true⟩⟩

/-- Baseline with median 0, mad 1 and 10 samples, for the MAD witness. -/
def madTestBaseline : Baseline := ⟨0, 0, 0, 1, 0, 0, 0, 0, 0, 0, 0, 10⟩

def madTestMgr : BaselineManager :=
  ⟨10, [], [(BaselineKey.latency "svc" "gpt-4", madTestBaseline)]⟩

def madTestEvent : TelemetryEvent := ⟨"svc", "gpt-4", 0, 0, 10, 0⟩

def madTestAnomaly : AnomalyEvent :=
  { severity := .High
    anomaly_type := .LatencySpike
    service_name := "svc"
    model := "gpt-4"
    detection_method := .Mad
    confidence := 0.99
    details :=
      { metric := "latency_ms"
        value := 10
        baseline := 0
        threshold := 7/2
        deviation_sigma := some (1349/200) } }

/-- **C10 witness.** -/
theorem mad_emitted_confidence_witness : madTestAnomaly.confidence = 0.99 :=
  mad_emitted_confidence madTestCfg madTestMgr madTestEvent madTestAnomaly
    (by norm_num [madTestCfg])
    (by norm_num [MadDetector.detect_latency, madTestCfg, madTestMgr, madTestEvent,
      madTestBaseline, madTestAnomaly, BaselineManager.get,
      BaselineManager.has_valid_baseline, Baseline.is_valid, Baseline.empty,
      alookup, BaselineKey.latency, is_mad_outlier, min_def])

/-! ### C5 — construction-time configuration errors -/

def defaultDetection : DetectionConfig := ⟨10, true⟩

/-- A configuration with the Z-Score detector enabled but a zero baseline
window. -/
def zeroWindowCfg : EngineConfig :=
  { enable_zscore := true
    zscore_config := ⟨3, defaultDetection⟩
    enable_iqr := false
    iqr_config := ⟨3/2, defaultDetection⟩
    enable_mad := false
    mad_config := ⟨7/2, defaultDetection⟩
    enable_cusum := false
    cusum_config := ⟨5, 1/2, defaultDetection⟩
    baseline_window_size := 0
    continuous_learning := true }

/-- **C5 counterexample.**  With a detector enabled and
`baseline_window_size = 0`, `DetectionEngine::new` succeeds — construction is
*not* fatal for window capacity < 1 (no such check exists; the capacity-0
window instead panics at the first push, see
`rollingWindow_capacity_zero_panics`). -/
theorem engine_new_zero_window_not_error :
    ¬ (((DetectionEngine.new zeroWindowCfg).isOk = false) ↔
        (enabledDetectors zeroWindowCfg = [] ∨
          zeroWindowCfg.baseline_window_size < 1)) := by
  intro h
  have hok : (DetectionEngine.new zeroWindowCfg).isOk = true := by
    unfold DetectionEngine.new
    rw [if_neg (by decide)]
    rfl
  have hflat := h.mpr (Or.inr (by decide))
  rw [hok] at hflat
  simp at hflat

/-- **C5** (amended).  `DetectionEngine::new` fails — with the configuration
error "No detectors enabled" — exactly when no detector is enabled; in every
other case (any window size, including 0) construction succeeds with a fresh
baseline manager of the configured window size. -/
theorem engine_new_fails_iff_no_detectors (c : EngineConfig) :
    ((DetectionEngine.new c).isOk = false ↔ enabledDetectors c = []) ∧
    (enabledDetectors c = [] →
      DetectionEngine.new c = .error "No detectors enabled") ∧
    (enabledDetectors c ≠ [] →
      DetectionEngine.new c
        = .ok ⟨BaselineManager.new c.baseline_window_size, []⟩) := by
  unfold DetectionEngine.new
  by_cases h : enabledDetectors c = []
  · rw [if_pos h]
    refine ⟨?_, fun _ => rfl, fun hne => absurd h hne⟩
    simp [Except.isOk, Except.toBool, h]
  · rw [if_neg h]
    refine ⟨?_, fun heq => absurd heq h, fun _ => rfl⟩
    simp [Except.isOk, Except.toBool, h]

/-- **C5 witness.** -/
theorem engine_new_fails_iff_no_detectors_witness :
    ((DetectionEngine.new zeroWindowCfg).isOk = false ↔
      enabledDetectors zeroWindowCfg = []) ∧
    (enabledDetectors zeroWindowCfg ≠ [] →
      DetectionEngine.new zeroWindowCfg
        = .ok ⟨BaselineManager.new zeroWindowCfg.baseline_window_size, []⟩) :=
  ⟨(engine_new_fails_iff_no_detectors zeroWindowCfg).1,
    (engine_new_fails_iff_no_detectors zeroWindowCfg).2.2⟩

/-! ### C3 — continuous learning through `process` -/

theorem from_data_sample_count (sqrtFn : ℚ → ℚ) (data : List ℚ) :
    (Baseline.from_data sqrtFn data).sample_count = data.length := by
  unfold Baseline.from_data
  by_cases h : data = []
  · rw [if_pos h, h]
    rfl
  · rw [if_neg h]

/-- Reachability invariant of the baseline store: every window was created
with the manager's window size, window lengths never exceed capacity, and a
cached baseline snapshot always corresponds to a (still) full window whose
length is its sample count. -/
structure ManagerInv (m : BaselineManager) : Prop where
  capEq : ∀ k w, alookup m.windows k = some w → w.capacity = m.window_size
  lenLe : ∀ k w, alookup m.windows k = some w → w.data.length ≤ w.capacity
  baseWin : ∀ k b, alookup m.baselines k = some b →
    ∃ w, alookup m.windows k = some w ∧ w.data.length = w.capacity ∧
      b.sample_count = w.data.length

theorem manager_update_some (sqrtFn : ℚ → ℚ) (m : BaselineManager)
    (key : BaselineKey) (v : ℚ) (hInv : ManagerInv m) (hws : 1 ≤ m.window_size) :
    ∃ m1, m.update sqrtFn key v = some m1 ∧ ManagerInv m1 ∧
      m1.window_size = m.window_size ∧
      (∀ k2, k2 ≠ key →
        alookup m1.windows k2 = alookup m.windows k2 ∧
        alookup m1.baselines k2 = alookup m.baselines k2) ∧
      (∀ w, alookup m.windows key = some w → w.data.length = w.capacity →
        ∃ w1, alookup m1.windows key = some w1 ∧ w1.data.length = w1.capacity ∧
          v ∈ w1.data ∧
          alookup m1.baselines key = some (Baseline.from_data sqrtFn w1.data)) := by
  have hw0 : ∃ w0, (alookup m.windows key).getD (RollingWindow.new m.window_size) = w0 ∧
      w0.capacity = m.window_size ∧ w0.data.length ≤ w0.capacity := by
    cases hw : alookup m.windows key with
    | none => exact ⟨RollingWindow.new m.window_size, rfl, rfl, by simp [RollingWindow.new]⟩
    | some w => exact ⟨w, rfl, hInv.capEq key w hw, hInv.lenLe key w hw⟩
  obtain ⟨w0, hw0eq, hw0cap, hw0len⟩ := hw0
  have hcap1 : 1 ≤ w0.capacity := by omega
  have hpush : w0.push? v =
      some ⟨(w0.data ++ [v]).drop (w0.data.length + 1 - w0.capacity), w0.capacity⟩ :=
    push?_eq_of_le w0.data w0.capacity v hcap1 hw0len
  set w1 : RollingWindow :=
    ⟨(w0.data ++ [v]).drop (w0.data.length + 1 - w0.capacity), w0.capacity⟩ with hw1def
  have hlen1 : w1.data.length = w0.data.length + 1 - (w0.data.length + 1 - w0.capacity) := by
    simp [hw1def, List.length_drop]
  have hlen1le : w1.data.length ≤ w1.capacity := by
    have : w1.capacity = w0.capacity := rfl
    omega
  have hvmem : v ∈ w1.data := by
    rw [hw1def]
    simp only []
    have hk : w0.data.length + 1 - w0.capacity ≤ w0.data.length := by omega
    rw [List.drop_append_eq_append_drop]
    have hz : w0.data.length + 1 - w0.capacity - w0.data.length = 0 := by omega
    rw [hz, List.drop_zero]
    simp
  have hupd : m.update sqrtFn key v =
      (if w1.is_full then
        some ⟨m.window_size, aupdate m.windows key w1,
          aupdate m.baselines key (Baseline.from_data sqrtFn w1.data)⟩
      else some ⟨m.window_size, aupdate m.windows key w1, m.baselines⟩) := by
    unfold BaselineManager.update
    rw [hw0eq]
    simp only [hpush]
  by_cases hfull : w1.is_full = true
  · rw [if_pos hfull] at hupd
    have hfull2 : w1.data.length = w1.capacity := by
      unfold RollingWindow.is_full at hfull
      have := of_decide_eq_true hfull
      omega
    refine ⟨_, hupd, ⟨?_, ?_, ?_⟩, rfl, ?_, ?_⟩
    · intro k w hk
      by_cases hkey : k = key
      · subst hkey
        rw [alookup_aupdate_self] at hk
        cases hk
        simp only
        rw [show w1.capacity = w0.capacity from rfl, hw0cap]
      · rw [alookup_aupdate_ne _ _ _ _ hkey] at hk
        exact hInv.capEq k w hk
    · intro k w hk
      by_cases hkey : k = key
      · subst hkey
        rw [alookup_aupdate_self] at hk
        cases hk
        exact hlen1le
      · rw [alookup_aupdate_ne _ _ _ _ hkey] at hk
        exact hInv.lenLe k w hk
    · intro k b hk
      by_cases hkey : k = key
      · subst hkey
        rw [alookup_aupdate_self] at hk
        cases hk
        refine ⟨w1, ?_, hfull2, ?_⟩
        · simp only
          rw [alookup_aupdate_self]
        · rw [from_data_sample_count]
      · rw [alookup_aupdate_ne _ _ _ _ hkey] at hk
        obtain ⟨w, hww, hwf, hwc⟩ := hInv.baseWin k b hk
        refine ⟨w, ?_, hwf, hwc⟩
        simp only
        rw [alookup_aupdate_ne _ _ _ _ hkey]
        exact hww
    · intro k2 hne
      constructor
      · simp only
        rw [alookup_aupdate_ne _ _ _ _ hne]
      · simp only
        rw [alookup_aupdate_ne _ _ _ _ hne]
    · intro w hw hwf
      refine ⟨w1, ?_, hfull2, hvmem, ?_⟩
      · simp only
        rw [alookup_aupdate_self]
      · simp only
        rw [alookup_aupdate_self]
  · rw [if_neg hfull] at hupd
    have hnotfull : w1.data.length < w1.capacity := by
      by_contra hge
      exact hfull (by
        unfold RollingWindow.is_full
        exact decide_eq_true (by omega))
    have hw0notfull : w0.data.length < w0.capacity := by
      by_cases hc : w0.data.length = w0.capacity
      · exfalso
        have : w1.data.length = w0.capacity := by omega
        have : w1.capacity = w0.capacity := rfl
        omega
      · omega
    refine ⟨_, hupd, ⟨?_, ?_, ?_⟩, rfl, ?_, ?_⟩
    · intro k w hk
      by_cases hkey : k = key
      · subst hkey
        rw [alookup_aupdate_self] at hk
        cases hk
        simp only
        rw [show w1.capacity = w0.capacity from rfl, hw0cap]
      · rw [alookup_aupdate_ne _ _ _ _ hkey] at hk
        exact hInv.capEq k w hk
    · intro k w hk
      by_cases hkey : k = key
      · subst hkey
        rw [alookup_aupdate_self] at hk
        cases hk
        exact hlen1le
      · rw [alookup_aupdate_ne _ _ _ _ hkey] at hk
        exact hInv.lenLe k w hk
    · intro k b hk
      simp only at hk
      by_cases hkey : k = key
      · subst hkey
        obtain ⟨w, hww, hwf, hwc⟩ := hInv.baseWin _ b hk
        exfalso
        rw [hww] at hw0eq
        simp only [Option.getD_some] at hw0eq
        subst hw0eq
        omega
      · obtain ⟨w, hww, hwf, hwc⟩ := hInv.baseWin k b hk
        refine ⟨w, ?_, hwf, hwc⟩
        simp only
        rw [alookup_aupdate_ne _ _ _ _ hkey]
        exact hww
    · intro k2 hne
      constructor
      · simp only
        rw [alookup_aupdate_ne _ _ _ _ hne]
      · simp only
    · intro w hw hwf
      exfalso
      rw [hw] at hw0eq
      simp only [Option.getD_some] at hw0eq
      subst hw0eq
      omega

/-- A sequence of `BaselineManager::update` calls (as issued by the
detectors' `update` methods). -/
def managerUpdates (sqrtFn : ℚ → ℚ) :
    BaselineManager → List (BaselineKey × ℚ) → Option BaselineManager
  | m, [] => some m
  | m, (k, v) :: rest =>
    match m.update sqrtFn k v with
    | none => none
    | some m1 => managerUpdates sqrtFn m1 rest

/-- Key `K` has a full window. -/
def WFull (K : BaselineKey) (m : BaselineManager) : Prop :=
  ∃ w, alookup m.windows K = some w ∧ w.data.length = w.capacity

/-- Key `K` has a full window containing `vK` whose recomputed snapshot is
the cached baseline. -/
def Tracked (sqrtFn : ℚ → ℚ) (K : BaselineKey) (vK : ℚ) (m : BaselineManager) : Prop :=
  ∃ w, alookup m.windows K = some w ∧ w.data.length = w.capacity ∧ vK ∈ w.data ∧
    alookup m.baselines K = some (Baseline.from_data sqrtFn w.data)

theorem managerUpdates_walk (sqrtFn : ℚ → ℚ) (K : BaselineKey) (vK : ℚ) :
    ∀ (l : List (BaselineKey × ℚ)) (m : BaselineManager),
      ManagerInv m → 1 ≤ m.window_size →
      (∀ v2, (K, v2) ∈ l → v2 = vK) →
      ∃ m2, managerUpdates sqrtFn m l = some m2 ∧ ManagerInv m2 ∧
        m2.window_size = m.window_size ∧
        (WFull K m → WFull K m2) ∧
        (Tracked sqrtFn K vK m → Tracked sqrtFn K vK m2) ∧
        (WFull K m → (K, vK) ∈ l → Tracked sqrtFn K vK m2)
  | [], m, hInv, hws, _ =>
    ⟨m, rfl, hInv, rfl, id, id, by
      intro _ h
      simp at h⟩
  | (k, v) :: rest, m, hInv, hws, hcons => by
    obtain ⟨m1, hupd, hInv1, hws1, hframe, htrack⟩ :=
      manager_update_some sqrtFn m k v hInv hws
    have hws1b : 1 ≤ m1.window_size := by omega
    obtain ⟨m2, hrest, hInv2, hws2, hWF2, hTr2, hEst2⟩ :=
      managerUpdates_walk sqrtFn K vK rest m1 hInv1 hws1b
        (fun v2 hv2 => hcons v2 (List.mem_cons_of_mem _ hv2))
    have hWFstep : WFull K m → WFull K m1 := by
      intro hWF
      obtain ⟨w, hw, hwf⟩ := hWF
      by_cases hk : K = k
      · subst hk
        obtain ⟨w1, hw1, hwf1, _, _⟩ := htrack w hw hwf
        exact ⟨w1, hw1, hwf1⟩
      · refine ⟨w, ?_, hwf⟩
        rw [(hframe K hk).1]
        exact hw
    refine ⟨m2, ?_, hInv2, by omega, ?_, ?_, ?_⟩
    · unfold managerUpdates
      rw [hupd]
      exact hrest
    · intro hWF
      exact hWF2 (hWFstep hWF)
    · intro hT
      apply hTr2
      by_cases hk : K = k
      · subst hk
        have hv : v = vK := hcons v (by simp)
        subst hv
        obtain ⟨w, hw, hwf, _, _⟩ := hT
        obtain ⟨w1, hw1, hwf1, hmem1, hbase1⟩ := htrack w hw hwf
        exact ⟨w1, hw1, hwf1, hmem1, hbase1⟩
      · obtain ⟨w, hw, hwf, hmem, hbase⟩ := hT
        refine ⟨w, ?_, hwf, hmem, ?_⟩
        · rw [(hframe K hk).1]
          exact hw
        · rw [(hframe K hk).2]
          exact hbase
    · intro hWF hmem
      rcases List.mem_cons.mp hmem with heq | hmem2
      · have hKk : K = k := congrArg Prod.fst heq
        have hvk : vK = v := congrArg Prod.snd heq
        subst hKk
        subst hvk
        obtain ⟨w, hw, hwf⟩ := hWF
        obtain ⟨w1, hw1, hwf1, hmem1, hbase1⟩ := htrack w hw hwf
        exact hTr2 ⟨w1, hw1, hwf1, hmem1, hbase1⟩
      · exact hEst2 (hWFstep hWF) hmem2

/-- The `(key, value)` pushes a detector's `update` issues for an event. -/
def detectorPushList (c : EngineConfig) (d : DetectorKind) (e : TelemetryEvent) :
    List (BaselineKey × ℚ) :=
  match d with
  | .zscore =>
    if c.zscore_config.detection.update_baseline then
      [(BaselineKey.latency e.service_name e.model, e.latency_ms),
       (BaselineKey.tokens e.service_name e.model, (e.total_tokens : ℚ)),
       (BaselineKey.cost e.service_name e.model, e.cost_usd)]
    else []
  | .iqr =>
    if c.iqr_config.detection.update_baseline then
      [(BaselineKey.latency e.service_name e.model, e.latency_ms)]
    else []
  | .mad =>
    if c.mad_config.detection.update_baseline then
      [(BaselineKey.latency e.service_name e.model, e.latency_ms)]
    else []
  | .cusum =>
    if c.cusum_config.detection.update_baseline then
      [(BaselineKey.cost e.service_name e.model, e.cost_usd)]
    else []

theorem updateDetector_eq_managerUpdates (sqrtFn : ℚ → ℚ) (c : EngineConfig)
    (d : DetectorKind) (m : BaselineManager) (e : TelemetryEvent) :
    DetectionEngine.updateDetector sqrtFn c d m e
      = managerUpdates sqrtFn m (detectorPushList c d e) := by
  cases d
  case zscore =>
    unfold DetectionEngine.updateDetector ZScoreDetector.update detectorPushList
    by_cases hf : c.zscore_config.detection.update_baseline = true
    · simp only [hf, Bool.not_true, Bool.false_eq_true, if_false, if_true]
      simp only [managerUpdates]
      cases h1 : m.update sqrtFn (BaselineKey.latency e.service_name e.model) e.latency_ms with
      | none => simp only [h1]
      | some m1 =>
        simp only [h1, managerUpdates]
        cases h2 : m1.update sqrtFn (BaselineKey.tokens e.service_name e.model)
            (e.total_tokens : ℚ) with
        | none => simp only [h2]
        | some m2 =>
          simp only [h2, managerUpdates]
          cases h3 : m2.update sqrtFn (BaselineKey.cost e.service_name e.model) e.cost_usd with
          | none => simp only [h3]
          | some m3 => simp only [h3]
    · have hf2 : c.zscore_config.detection.update_baseline = false := by
        cases h : c.zscore_config.detection.update_baseline
        · rfl
        · exact absurd h hf
      simp only [hf2, Bool.not_false, if_true, Bool.false_eq_true, if_false]
      rfl
  case iqr =>
    unfold DetectionEngine.updateDetector IqrDetector.update detectorPushList
    by_cases hf : c.iqr_config.detection.update_baseline = true
    · simp only [hf, Bool.not_true, Bool.false_eq_true, if_false, if_true]
      simp only [managerUpdates]
      cases h1 : m.update sqrtFn (BaselineKey.latency e.service_name e.model) e.latency_ms with
      | none => simp only [h1]
      | some m1 => simp only [h1]
    · have hf2 : c.iqr_config.detection.update_baseline = false := by
        cases h : c.iqr_config.detection.update_baseline
        · rfl
        · exact absurd h hf
      simp only [hf2, Bool.not_false, if_true, Bool.false_eq_true, if_false]
      rfl
  case mad =>
    unfold DetectionEngine.updateDetector MadDetector.update detectorPushList
    by_cases hf : c.mad_config.detection.update_baseline = true
    · simp only [hf, Bool.not_true, Bool.false_eq_true, if_false, if_true]
      simp only [managerUpdates]
      cases h1 : m.update sqrtFn (BaselineKey.latency e.service_name e.model) e.latency_ms with
      | none => simp only [h1]
      | some m1 => simp only [h1]
    · have hf2 : c.mad_config.detection.update_baseline = false := by
        cases h : c.mad_config.detection.update_baseline
        · rfl
        · exact absurd h hf
      simp only [hf2, Bool.not_false, if_true, Bool.false_eq_true, if_false]
      rfl
  case cusum =>
    unfold DetectionEngine.updateDetector CusumDetector.update detectorPushList
    by_cases hf : c.cusum_config.detection.update_baseline = true
    · simp only [hf, Bool.not_true, Bool.false_eq_true, if_false, if_true]
      simp only [managerUpdates]
      cases h1 : m.update sqrtFn (BaselineKey.cost e.service_name e.model) e.cost_usd with
      | none => simp only [h1]
      | some m1 => simp only [h1]
    · have hf2 : c.cusum_config.detection.update_baseline = false := by
        cases h : c.cusum_config.detection.update_baseline
        · rfl
        · exact absurd h hf
      simp only [hf2, Bool.not_false, if_true, Bool.false_eq_true, if_false]
      rfl

theorem managerUpdates_append (sqrtFn : ℚ → ℚ) :
    ∀ (l1 l2 : List (BaselineKey × ℚ)) (m : BaselineManager),
      managerUpdates sqrtFn m (l1 ++ l2)
        = match managerUpdates sqrtFn m l1 with
          | none => none
          | some m1 => managerUpdates sqrtFn m1 l2
  | [], _, _ => rfl
  | (k, v) :: rest, l2, m => by
    show managerUpdates sqrtFn m ((k, v) :: (rest ++ l2)) = _
    simp only [managerUpdates]
    cases h1 : m.update sqrtFn k v with
    | none => simp only [h1]
    | some m1 =>
      simp only [h1]
      exact managerUpdates_append sqrtFn rest l2 m1

/-- All pushes issued by the engine's update pass, detectors in order. -/
def enginePushList (c : EngineConfig) (e : TelemetryEvent)
    (ds : List DetectorKind) : List (BaselineKey × ℚ) :=
  ds.foldr (fun d acc => detectorPushList c d e ++ acc) []

theorem updateList_eq_managerUpdates (sqrtFn : ℚ → ℚ) (c : EngineConfig)
    (e : TelemetryEvent) :
    ∀ (ds : List DetectorKind) (m : BaselineManager),
      DetectionEngine.updateList sqrtFn c e ds m
        = managerUpdates sqrtFn m (enginePushList c e ds)
  | [], m => rfl
  | d :: rest, m => by
    show _ = managerUpdates sqrtFn m (detectorPushList c d e ++ enginePushList c e rest)
    rw [managerUpdates_append]
    unfold DetectionEngine.updateList
    rw [updateDetector_eq_managerUpdates]
    cases managerUpdates sqrtFn m (detectorPushList c d e) with
    | none => rfl
    | some m1 => exact updateList_eq_managerUpdates sqrtFn c e rest m1

/-- Every push in a detector's push list targets a key of the event's
service/model, carrying exactly the event's value for that key's metric. -/
theorem eventMetricValue_latency (e : TelemetryEvent) :
    eventMetricValue e (BaselineKey.latency e.service_name e.model).metric
      = e.latency_ms := by
  simp [eventMetricValue, BaselineKey.latency]

theorem eventMetricValue_tokens (e : TelemetryEvent) :
    eventMetricValue e (BaselineKey.tokens e.service_name e.model).metric
      = (e.total_tokens : ℚ) := by
  simp [eventMetricValue, BaselineKey.tokens]

theorem eventMetricValue_cost (e : TelemetryEvent) :
    eventMetricValue e (BaselineKey.cost e.service_name e.model).metric
      = e.cost_usd := by
  simp [eventMetricValue, BaselineKey.cost]

theorem detectorPushList_value (c : EngineConfig) (d : DetectorKind)
    (e : TelemetryEvent) (k : BaselineKey) (v : ℚ)
    (hmem : (k, v) ∈ detectorPushList c d e) :
    v = eventMetricValue e k.metric := by
  cases d
  case zscore =>
    simp only [detectorPushList] at hmem
    split at hmem
    · simp only [List.mem_cons, List.not_mem_nil, or_false] at hmem
      rcases hmem with h | h | h
      · rw [Prod.mk.injEq] at h
        rw [h.1, h.2, eventMetricValue_latency]
      · rw [Prod.mk.injEq] at h
        rw [h.1, h.2, eventMetricValue_tokens]
      · rw [Prod.mk.injEq] at h
        rw [h.1, h.2, eventMetricValue_cost]
    · simp at hmem
  case iqr =>
    simp only [detectorPushList] at hmem
    split at hmem
    · simp only [List.mem_cons, List.not_mem_nil, or_false] at hmem
      rw [Prod.mk.injEq] at hmem
      rw [hmem.1, hmem.2, eventMetricValue_latency]
    · simp at hmem
  case mad =>
    simp only [detectorPushList] at hmem
    split at hmem
    · simp only [List.mem_cons, List.not_mem_nil, or_false] at hmem
      rw [Prod.mk.injEq] at hmem
      rw [hmem.1, hmem.2, eventMetricValue_latency]
    · simp at hmem
  case cusum =>
    simp only [detectorPushList] at hmem
    split at hmem
    · simp only [List.mem_cons, List.not_mem_nil, or_false] at hmem
      rw [Prod.mk.injEq] at hmem
      rw [hmem.1, hmem.2, eventMetricValue_cost]
    · simp at hmem

theorem enginePushList_value (c : EngineConfig) (e : TelemetryEvent) :
    ∀ (ds : List DetectorKind) (k : BaselineKey) (v : ℚ),
      (k, v) ∈ enginePushList c e ds → v = eventMetricValue e k.metric
  | [], _, _, hmem => by simp [enginePushList] at hmem
  | d :: rest, k, v, hmem => by
    rcases List.mem_append.mp hmem with h | h
    · exact detectorPushList_value c d e k v h
    · exact enginePushList_value c e rest k v h

theorem enginePushList_mem (c : EngineConfig) (e : TelemetryEvent) :
    ∀ (ds : List DetectorKind) (d : DetectorKind) (p : BaselineKey × ℚ),
      d ∈ ds → p ∈ detectorPushList c d e → p ∈ enginePushList c e ds
  | [], _, _, hd, _ => by simp at hd
  | d0 :: rest, d, p, hd, hp => by
    rcases List.mem_cons.mp hd with h | h
    · subst h
      exact List.mem_append.mpr (Or.inl hp)
    · exact List.mem_append.mpr (Or.inr (enginePushList_mem c e rest d p h hp))

theorem zscore_detect_latency_fields (cfg : ZScoreConfig) (m : BaselineManager)
    (e : TelemetryEvent) (a : AnomalyEvent)
    (h : ZScoreDetector.detect_latency cfg m e = some a) :
    m.has_valid_baseline (BaselineKey.latency e.service_name e.model) = true ∧
    a.service_name = e.service_name ∧ a.model = e.model ∧
    a.details.metric = "latency_ms" := by
  by_cases hv : m.has_valid_baseline (BaselineKey.latency e.service_name e.model) = true
  · have hv2 : (!m.has_valid_baseline (BaselineKey.latency e.service_name e.model))
        = false := by
      rw [hv]
      rfl
    unfold ZScoreDetector.detect_latency at h
    simp only [hv2, Bool.false_eq_true, if_false] at h
    split at h
    · have ha := (Option.some.inj h).symm
      subst ha
      exact ⟨hv, rfl, rfl, rfl⟩
    · exact absurd h (by simp)
  · have hv2 : (!m.has_valid_baseline (BaselineKey.latency e.service_name e.model))
        = true := by
      cases hb : m.has_valid_baseline (BaselineKey.latency e.service_name e.model)
      · rfl
      · exact absurd hb hv
    unfold ZScoreDetector.detect_latency at h
    rw [if_pos hv2] at h
    exact absurd h (by simp)

theorem zscore_detect_tokens_fields (cfg : ZScoreConfig) (m : BaselineManager)
    (e : TelemetryEvent) (a : AnomalyEvent)
    (h : ZScoreDetector.detect_tokens cfg m e = some a) :
    m.has_valid_baseline (BaselineKey.tokens e.service_name e.model) = true ∧
    a.service_name = e.service_name ∧ a.model = e.model ∧
    a.details.metric = "total_tokens" := by
  by_cases hv : m.has_valid_baseline (BaselineKey.tokens e.service_name e.model) = true
  · have hv2 : (!m.has_valid_baseline (BaselineKey.tokens e.service_name e.model))
        = false := by
      rw [hv]
      rfl
    unfold ZScoreDetector.detect_tokens at h
    simp only [hv2, Bool.false_eq_true, if_false] at h
    split at h
    · have ha := (Option.some.inj h).symm
      subst ha
      exact ⟨hv, rfl, rfl, rfl⟩
    · exact absurd h (by simp)
  · have hv2 : (!m.has_valid_baseline (BaselineKey.tokens e.service_name e.model))
        = true := by
      cases hb : m.has_valid_baseline (BaselineKey.tokens e.service_name e.model)
      · rfl
      · exact absurd hb hv
    unfold ZScoreDetector.detect_tokens at h
    rw [if_pos hv2] at h
    exact absurd h (by simp)

theorem zscore_detect_cost_fields (cfg : ZScoreConfig) (m : BaselineManager)
    (e : TelemetryEvent) (a : AnomalyEvent)
    (h : ZScoreDetector.detect_cost cfg m e = some a) :
    m.has_valid_baseline (BaselineKey.cost e.service_name e.model) = true ∧
    a.service_name = e.service_name ∧ a.model = e.model ∧
    a.details.metric = "cost_usd" := by
  by_cases hv : m.has_valid_baseline (BaselineKey.cost e.service_name e.model) = true
  · have hv2 : (!m.has_valid_baseline (BaselineKey.cost e.service_name e.model))
        = false := by
      rw [hv]
      rfl
    unfold ZScoreDetector.detect_cost at h
    simp only [hv2, Bool.false_eq_true, if_false] at h
    split at h
    · have ha := (Option.some.inj h).symm
      subst ha
      exact ⟨hv, rfl, rfl, rfl⟩
    · exact absurd h (by simp)
  · have hv2 : (!m.has_valid_baseline (BaselineKey.cost e.service_name e.model))
        = true := by
      cases hb : m.has_valid_baseline (BaselineKey.cost e.service_name e.model)
      · rfl
      · exact absurd hb hv
    unfold ZScoreDetector.detect_cost at h
    rw [if_pos hv2] at h
    exact absurd h (by simp)

theorem iqr_detect_latency_fields (cfg : IqrConfig) (m : BaselineManager)
    (e : TelemetryEvent) (a : AnomalyEvent)
    (h : IqrDetector.detect_latency cfg m e = some a) :
    m.has_valid_baseline (BaselineKey.latency e.service_name e.model) = true ∧
    a.service_name = e.service_name ∧ a.model = e.model ∧
    a.details.metric = "latency_ms" := by
  by_cases hv : m.has_valid_baseline (BaselineKey.latency e.service_name e.model) = true
  · have hv2 : (!m.has_valid_baseline (BaselineKey.latency e.service_name e.model))
        = false := by
      rw [hv]
      rfl
    unfold IqrDetector.detect_latency at h
    simp only [hv2, Bool.false_eq_true, if_false] at h
    split at h
    · have ha := (Option.some.inj h).symm
      subst ha
      exact ⟨hv, rfl, rfl, rfl⟩
    · exact absurd h (by simp)
  · have hv2 : (!m.has_valid_baseline (BaselineKey.latency e.service_name e.model))
        = true := by
      cases hb : m.has_valid_baseline (BaselineKey.latency e.service_name e.model)
      · rfl
      · exact absurd hb hv
    unfold IqrDetector.detect_latency at h
    rw [if_pos hv2] at h
    exact absurd h (by simp)

theorem mad_detect_latency_fields (cfg : MadConfig) (m : BaselineManager)
    (e : TelemetryEvent) (a : AnomalyEvent)
    (h : MadDetector.detect_latency cfg m e = some a) :
    m.has_valid_baseline (BaselineKey.latency e.service_name e.model) = true ∧
    a.service_name = e.service_name ∧ a.model = e.model ∧
    a.details.metric = "latency_ms" := by
  by_cases hv : m.has_valid_baseline (BaselineKey.latency e.service_name e.model) = true
  · have hv2 : (!m.has_valid_baseline (BaselineKey.latency e.service_name e.model))
        = false := by
      rw [hv]
      rfl
    unfold MadDetector.detect_latency at h
    simp only [hv2, Bool.false_eq_true, if_false] at h
    split at h
    · have ha := (Option.some.inj h).symm
      subst ha
      exact ⟨hv, rfl, rfl, rfl⟩
    · exact absurd h (by simp)
  · have hv2 : (!m.has_valid_baseline (BaselineKey.latency e.service_name e.model))
        = true := by
      cases hb : m.has_valid_baseline (BaselineKey.latency e.service_name e.model)
      · rfl
      · exact absurd hb hv
    unfold MadDetector.detect_latency at h
    rw [if_pos hv2] at h
    exact absurd h (by simp)

theorem cusum_drift_fields (cfg : CusumConfig) (m : BaselineManager)
    (states : CusumStates) (e : TelemetryEvent) (a : AnomalyEvent)
    (h : (CusumDetector.detect_cost_drift cfg m states e).1 = some a) :
    m.has_valid_baseline (BaselineKey.cost e.service_name e.model) = true ∧
    a.service_name = e.service_name ∧ a.model = e.model ∧
    a.details.metric = "cost_usd" := by
  by_cases hv : m.has_valid_baseline (BaselineKey.cost e.service_name e.model) = true
  · have hv2 : (!m.has_valid_baseline (BaselineKey.cost e.service_name e.model))
        = false := by
      rw [hv]
      rfl
    unfold CusumDetector.detect_cost_drift at h
    simp only [hv2, Bool.false_eq_true, if_false] at h
    split at h
    · simp only at h
      have ha := (Option.some.inj h).symm
      subst ha
      exact ⟨hv, rfl, rfl, rfl⟩
    · simp at h
  · have hv2 : (!m.has_valid_baseline (BaselineKey.cost e.service_name e.model))
        = true := by
      cases hb : m.has_valid_baseline (BaselineKey.cost e.service_name e.model)
      · rfl
      · exact absurd hb hv
    unfold CusumDetector.detect_cost_drift at h
    rw [if_pos hv2] at h
    exact absurd h (by simp)

/-- Any detector that emits an anomaly did so under a valid baseline for the
anomaly's key, and its own `update` pushes that key's metric value. -/
theorem runDetector_emit (c : EngineConfig) (d : DetectorKind) (s : EngineState)
    (e : TelemetryEvent) (a : AnomalyEvent) (s1 : EngineState)
    (hub : c.zscore_config.detection.update_baseline = true ∧
      c.iqr_config.detection.update_baseline = true ∧
      c.mad_config.detection.update_baseline = true ∧
      c.cusum_config.detection.update_baseline = true)
    (h : DetectionEngine.runDetector c d s e = (some a, s1)) :
    s1.manager = s.manager ∧
    s.manager.has_valid_baseline (anomalyKey a) = true ∧
    (anomalyKey a, eventMetricValue e a.details.metric) ∈ detectorPushList c d e := by
  cases d
  case zscore =>
    unfold DetectionEngine.runDetector at h
    rw [Prod.mk.injEq] at h
    obtain ⟨hdet, hs⟩ := h
    refine ⟨hs.symm ▸ rfl, ?_⟩
    unfold ZScoreDetector.detect at hdet
    cases h1 : ZScoreDetector.detect_latency c.zscore_config s.manager e with
    | some a1 =>
      simp only [h1] at hdet
      have ha := Option.some.inj hdet
      subst ha
      obtain ⟨hvb, hsv, hmd, hmet⟩ := zscore_detect_latency_fields _ _ _ _ h1
      have hkey : anomalyKey a1 = BaselineKey.latency e.service_name e.model := by
        unfold anomalyKey BaselineKey.latency
        rw [hsv, hmd, hmet]
      refine ⟨by rw [hkey]; exact hvb, ?_⟩
      rw [hkey, hmet]
      simp [detectorPushList, hub.1, eventMetricValue]
    | none =>
      simp only [h1] at hdet
      cases h2 : ZScoreDetector.detect_tokens c.zscore_config s.manager e with
      | some a2 =>
        simp only [h2] at hdet
        have ha := Option.some.inj hdet
        subst ha
        obtain ⟨hvb, hsv, hmd, hmet⟩ := zscore_detect_tokens_fields _ _ _ _ h2
        have hkey : anomalyKey a2 = BaselineKey.tokens e.service_name e.model := by
          unfold anomalyKey BaselineKey.tokens
          rw [hsv, hmd, hmet]
        refine ⟨by rw [hkey]; exact hvb, ?_⟩
        rw [hkey, hmet]
        simp [detectorPushList, hub.1, eventMetricValue]
      | none =>
        simp only [h2] at hdet
        obtain ⟨hvb, hsv, hmd, hmet⟩ := zscore_detect_cost_fields _ _ _ _ hdet
        have hkey : anomalyKey a = BaselineKey.cost e.service_name e.model := by
          unfold anomalyKey BaselineKey.cost
          rw [hsv, hmd, hmet]
        refine ⟨by rw [hkey]; exact hvb, ?_⟩
        rw [hkey, hmet]
        simp [detectorPushList, hub.1, eventMetricValue]
  case iqr =>
    unfold DetectionEngine.runDetector at h
    rw [Prod.mk.injEq] at h
    obtain ⟨hdet, hs⟩ := h
    refine ⟨hs.symm ▸ rfl, ?_⟩
    unfold IqrDetector.detect at hdet
    obtain ⟨hvb, hsv, hmd, hmet⟩ := iqr_detect_latency_fields _ _ _ _ hdet
    have hkey : anomalyKey a = BaselineKey.latency e.service_name e.model := by
      unfold anomalyKey BaselineKey.latency
      rw [hsv, hmd, hmet]
    refine ⟨by rw [hkey]; exact hvb, ?_⟩
    rw [hkey, hmet]
    simp [detectorPushList, hub.2.1, eventMetricValue]
  case mad =>
    unfold DetectionEngine.runDetector at h
    rw [Prod.mk.injEq] at h
    obtain ⟨hdet, hs⟩ := h
    refine ⟨hs.symm ▸ rfl, ?_⟩
    unfold MadDetector.detect at hdet
    obtain ⟨hvb, hsv, hmd, hmet⟩ := mad_detect_latency_fields _ _ _ _ hdet
    have hkey : anomalyKey a = BaselineKey.latency e.service_name e.model := by
      unfold anomalyKey BaselineKey.latency
      rw [hsv, hmd, hmet]
    refine ⟨by rw [hkey]; exact hvb, ?_⟩
    rw [hkey, hmet]
    simp [detectorPushList, hub.2.2.1, eventMetricValue]
  case cusum =>
    unfold DetectionEngine.runDetector at h
    rw [Prod.mk.injEq] at h
    obtain ⟨hdet, hs⟩ := h
    refine ⟨hs.symm ▸ rfl, ?_⟩
    unfold CusumDetector.detect at hdet
    obtain ⟨hvb, hsv, hmd, hmet⟩ := cusum_drift_fields _ _ _ _ _ hdet
    have hkey : anomalyKey a = BaselineKey.cost e.service_name e.model := by
      unfold anomalyKey BaselineKey.cost
      rw [hsv, hmd, hmet]
    refine ⟨by rw [hkey]; exact hvb, ?_⟩
    rw [hkey, hmet]
    simp [detectorPushList, hub.2.2.2, eventMetricValue]

theorem runDetector_manager (c : EngineConfig) (d : DetectorKind) (s : EngineState)
    (e : TelemetryEvent) :
    ((DetectionEngine.runDetector c d s e).2).manager = s.manager := by
  cases d <;> rfl

/-- Short-circuit detection: the first emitted anomaly was produced against
the (unchanged) shared manager by a detector of the queried list. -/
theorem detectList_emit (c : EngineConfig) (e : TelemetryEvent)
    (hub : c.zscore_config.detection.update_baseline = true ∧
      c.iqr_config.detection.update_baseline = true ∧
      c.mad_config.detection.update_baseline = true ∧
      c.cusum_config.detection.update_baseline = true) :
    ∀ (ds : List DetectorKind) (s : EngineState) (a : AnomalyEvent) (s1 : EngineState),
      DetectionEngine.detectList c e ds s = (some a, s1) →
      s1.manager = s.manager ∧
      s.manager.has_valid_baseline (anomalyKey a) = true ∧
      ∃ d ∈ ds, (anomalyKey a, eventMetricValue e a.details.metric)
        ∈ detectorPushList c d e
  | [], s, a, s1, h => by
    unfold DetectionEngine.detectList at h
    rw [Prod.mk.injEq] at h
    exact absurd h.1 (by simp)
  | d :: rest, s, a, s1, h => by
    unfold DetectionEngine.detectList at h
    cases hr : (DetectionEngine.runDetector c d s e).1 with
    | some a0 =>
      simp only [hr] at h
      rw [Prod.mk.injEq] at h
      obtain ⟨h1, h2⟩ := h
      have ha := Option.some.inj h1
      subst ha
      have hfull : DetectionEngine.runDetector c d s e = (some a0, s1) := by
        rw [Prod.ext_iff]
        exact ⟨hr, h2⟩
      obtain ⟨hm, hv, hp⟩ := runDetector_emit c d s e a0 s1 hub hfull
      exact ⟨hm, hv, d, List.mem_cons_self d rest, hp⟩
    | none =>
      simp only [hr] at h
      obtain ⟨hm, hv, d2, hd2, hp⟩ :=
        detectList_emit c e hub rest ((DetectionEngine.runDetector c d s e).2) a s1 h
      have hmgr := runDetector_manager c d s e
      refine ⟨hm.trans hmgr, ?_, d2, List.mem_cons_of_mem d hd2, hp⟩
      rw [hmgr] at hv
      exact hv

theorem valid_baseline_wfull (m : BaselineManager) (K : BaselineKey)
    (hInv : ManagerInv m) (hvb : m.has_valid_baseline K = true) :
    WFull K m ∧ 10 ≤ m.window_size := by
  unfold BaselineManager.has_valid_baseline BaselineManager.get at hvb
  cases hb : alookup m.baselines K with
  | none =>
    rw [hb] at hvb
    simp at hvb
  | some b =>
    rw [hb] at hvb
    simp only [Option.map_some', Option.getD_some] at hvb
    unfold Baseline.is_valid at hvb
    have hvalid : b.sample_count ≥ 10 := of_decide_eq_true hvb
    obtain ⟨w, hw, hwf, hwc⟩ := hInv.baseWin K b hb
    have hcap := hInv.capEq K w hw
    exact ⟨⟨w, hw, hwf⟩, by omega⟩

/-- **C3.**  With continuous learning and baseline updating on, `process`
runs `detect` first and then `update` on every enabled detector even when an
anomaly was returned; consequently, starting from a reachable baseline-store
state, any anomaly `process` returns has its metric key's snapshot recomputed
from a (still full) window that now contains the anomalous event's metric
value. -/
theorem engine_continuous_learning (sqrtFn : ℚ → ℚ) (c : EngineConfig)
    (s : EngineState) (e : TelemetryEvent) (a : AnomalyEvent) (s2 : EngineState)
    (hInv : ManagerInv s.manager)
    (hcl : c.continuous_learning = true)
    (hub : c.zscore_config.detection.update_baseline = true ∧
      c.iqr_config.detection.update_baseline = true ∧
      c.mad_config.detection.update_baseline = true ∧
      c.cusum_config.detection.update_baseline = true)
    (hproc : DetectionEngine.process sqrtFn c s e = some (some a, s2)) :
    ∃ w : RollingWindow,
      alookup s2.manager.windows (anomalyKey a) = some w ∧
      w.data.length = w.capacity ∧
      s2.manager.get (anomalyKey a) = some (Baseline.from_data sqrtFn w.data) ∧
      eventMetricValue e a.details.metric ∈ w.data := by
  unfold DetectionEngine.process at hproc
  cases hupd : DetectionEngine.update sqrtFn c (DetectionEngine.detect c s e).2 e with
  | none =>
    simp only [hupd] at hproc
    exact absurd hproc (by simp)
  | some s3 =>
    simp only [hupd] at hproc
    have hpair := Option.some.inj hproc
    rw [Prod.mk.injEq] at hpair
    obtain ⟨h1, h3⟩ := hpair
    subst h3
    have hdfull : DetectionEngine.detectList c e (enabledDetectors c) s
        = (some a, (DetectionEngine.detect c s e).2) := by
      rw [Prod.ext_iff]
      exact ⟨h1, rfl⟩
    obtain ⟨hmEq, hvb, d, hd, hpush⟩ :=
      detectList_emit c e hub (enabledDetectors c) s a _ hdfull
    obtain ⟨hWF, hws10⟩ := valid_baseline_wfull s.manager (anomalyKey a) hInv hvb
    unfold DetectionEngine.update at hupd
    rw [hcl] at hupd
    simp only [Bool.not_true, Bool.false_eq_true, if_false] at hupd
    rw [updateList_eq_managerUpdates, hmEq] at hupd
    obtain ⟨m2, hm2eq, hInv2, hws2, hWF2, hTr2, hEst2⟩ :=
      managerUpdates_walk sqrtFn (anomalyKey a) (eventMetricValue e a.details.metric)
        (enginePushList c e (enabledDetectors c)) s.manager hInv (by omega)
        (fun v2 hv2 =>
          enginePushList_value c e (enabledDetectors c) (anomalyKey a) v2 hv2)
    rw [hm2eq] at hupd
    have hupd2 : some (⟨m2, (DetectionEngine.detect c s e).2.cusum_states⟩ : EngineState)
        = some s3 := hupd
    have hs2 := Option.some.inj hupd2
    have hTracked := hEst2 hWF
      (enginePushList_mem c e (enabledDetectors c) d _ hd hpush)
    obtain ⟨w, hw, hwf, hmem, hbase⟩ := hTracked
    refine ⟨w, ?_, hwf, ?_, hmem⟩
    · rw [← hs2]
      exact hw
    · unfold BaselineManager.get
      rw [← hs2]
      exact hbase

def c3sqrt : ℚ → ℚ := fun _ => 0

def c3key : BaselineKey := BaselineKey.cost "svc" "gpt-4"

def c3olddata : List ℚ :=
  [1/100, 1/100, 1/100, 1/100, 1/100, 1/100, 1/100, 1/100, 1/100, 1/100]

def c3newdata : List ℚ :=
  [1/100, 1/100, 1/100, 1/100, 1/100, 1/100, 1/100, 1/100, 1/100, 100]

/-- A valid cached baseline over `c3olddata` (mean 0.01, 10 samples). -/
def c3baseline : Baseline := ⟨1/100, 0, 0, 0, 0, 0, 0, 0, 0, 0, 0, 10⟩

def c3state : EngineState :=
  ⟨⟨10, [(c3key, ⟨c3olddata, 10⟩)], [(c3key, c3baseline)]⟩, []⟩

def c3cfg : EngineConfig :=
  { enable_zscore := false
    zscore_config := ⟨3, ⟨10, true⟩⟩
    enable_iqr := false
    iqr_config := ⟨3/2, ⟨10, true⟩⟩
    enable_mad := false
    mad_config := ⟨7/2, ⟨10, true⟩⟩
    enable_cusum := true
    cusum_config := ⟨5, 1/2, ⟨10, true⟩⟩
    baseline_window_size := 10
    continuous_learning := true }

def c3event : TelemetryEvent := ⟨"svc", "gpt-4", 0, 0, 0, 100⟩

def c3anomaly : AnomalyEvent :=
  { severity := .High
    anomaly_type := .CostAnomaly
    service_name := "svc"
    model := "gpt-4"
    detection_method := .Cusum
    confidence := 0.95
    details := ⟨"cost_usd", 100, 1/100, 51/100, none⟩ }

def c3after : EngineState :=
  ⟨⟨10, [(c3key, ⟨c3newdata, 10⟩)], [(c3key, Baseline.from_data c3sqrt c3newdata)]⟩,
   [(c3key, ⟨0, 0, 0⟩)]⟩

theorem c3state_inv : ManagerInv c3state.manager := by
  refine ⟨?_, ?_, ?_⟩
  · intro k w h
    simp only [c3state] at h ⊢
    unfold alookup at h
    split at h
    · cases h
      rfl
    · simp [alookup] at h
  · intro k w h
    simp only [c3state] at h
    unfold alookup at h
    split at h
    · cases h
      decide
    · simp [alookup] at h
  · intro k b h
    simp only [c3state] at h ⊢
    unfold alookup at h
    split at h
    next hk =>
      cases h
      refine ⟨⟨c3olddata, 10⟩, ?_, by decide, by decide⟩
      rw [hk]
      unfold alookup
      rw [if_pos rfl]
    next hk =>
      simp [alookup] at h

/-- **C3 witness.** -/
theorem engine_continuous_learning_witness :
    ∃ w : RollingWindow,
      alookup c3after.manager.windows (anomalyKey c3anomaly) = some w ∧
      w.data.length = w.capacity ∧
      c3after.manager.get (anomalyKey c3anomaly)
        = some (Baseline.from_data c3sqrt w.data) ∧
      eventMetricValue c3event c3anomaly.details.metric ∈ w.data :=
  engine_continuous_learning c3sqrt c3cfg c3state c3event c3anomaly c3after
    c3state_inv rfl ⟨rfl, rfl, rfl, rfl⟩
    (by norm_num [DetectionEngine.process, DetectionEngine.detect,
      DetectionEngine.detectList, DetectionEngine.runDetector, enabledDetectors,
      CusumDetector.detect, CusumDetector.detect_cost_drift,
      DetectionEngine.update, DetectionEngine.updateList,
      DetectionEngine.updateDetector, CusumDetector.update,
      BaselineManager.update, BaselineManager.get,
      BaselineManager.has_valid_baseline, Baseline.is_valid,
      RollingWindow.push?, RollingWindow.is_full, alookup, aupdate,
      BaselineKey.cost, CusumState.new, c3state, c3cfg, c3event, c3key,
      c3olddata, c3baseline, c3newdata, c3anomaly, c3after, max_def, min_def])

end LlmSentinel
